import Mathlib

/-!
Shallow embedding of `kanjicolorizer/colorizer.py` (the SVG-transformation
core of kanji-colorize) together with proofs about it.

The Python code operates on `xml.dom.minidom` trees.  The embedding models
the three node kinds the code touches (elements with a tag, an ordered
attribute list and ordered children; text nodes; comment nodes), the
minidom operations used by the code (`getElementsByTagName` in preorder
document order, attribute set-or-replace, `childNodes`), and the private
methods of `KanjiColorizer` as pure functions.  Python floats are modelled
by exact rationals (`ℚ`); `int(...)` truncation toward zero is modelled by
`truncQ`.  Exceptions are modelled by `Except` with the Python exception
class recorded in `PyError`.
-/

namespace KanjiColorize

/-- A minidom node: element (tag, attributes in insertion order, children),
text node, or comment node. -/
inductive Node where
  | element (tag : String) (attrs : List (String × String)) (children : List Node)
  | text (data : String)
  | comment (data : String)
deriving Repr

/-- Python exception classes that the pipeline can raise.  The module itself
defines only `Error` and `InvalidCharacterError`; the pipeline can also let
library exceptions escape. -/
inductive PyError where
  | expatError (msg : String)
  | indexError
  | keyError
  | attributeError
  | stopIteration
deriving Repr, DecidableEq

/-- The exception classes defined by `colorizer.py` itself
(`class Error(Exception)` and `class InvalidCharacterError(Error)`). -/
def moduleExceptionClasses : List String := ["Error", "InvalidCharacterError"]

/-- minidom `nodeName`: the tag for elements, `#text` / `#comment` otherwise. -/
def Node.nodeName : Node → String
  | .element t _ _ => t
  | .text _ => "#text"
  | .comment _ => "#comment"

/-- Children of a node (`childNodes`); text and comment nodes have none. -/
def Node.children : Node → List Node
  | .element _ _ cs => cs
  | _ => []

/-- Attributes of a node; only elements carry attributes. -/
def Node.attrs : Node → List (String × String)
  | .element _ a _ => a
  | _ => []

/-- Attribute lookup (`element.attributes[name]`, read side). -/
def lookupAttr (a : List (String × String)) (k : String) : Option String :=
  match a.find? (fun p => p.1 == k) with
  | some p => some p.2
  | none => none

/-- minidom `NamedNodeMap.__setitem__` with a string value: replace the
value of an existing attribute in place, or append a new attribute. -/
def setAttr (a : List (String × String)) (k v : String) : List (String × String) :=
  match a with
  | [] => [(k, v)]
  | (k', v') :: rest => if k' == k then (k, v) :: rest else (k', v') :: setAttr rest k v

/-- `hasAttribute`. -/
def hasAttr (a : List (String × String)) (k : String) : Bool :=
  (a.find? (fun p => p.1 == k)).isSome

/-- Attribute read on a node. -/
def Node.getAttribute (n : Node) (k : String) : Option String :=
  lookupAttr n.attrs k

mutual
/-- Collector for `getElementsByTagName`: a matching element, followed by the
matches inside its children (minidom preorder document order). -/
def elemsN (tag : String) : Node → List Node
  | .element t a cs => (if t == tag then [Node.element t a cs] else []) ++ elemsF tag cs
  | _ => []

/-- `getElementsByTagName` collected across a list of sibling nodes. -/
def elemsF (tag : String) : List Node → List Node
  | [] => []
  | n :: ns => elemsN tag n ++ elemsF tag ns
end

/-- minidom `node.getElementsByTagName(tag)`: all matching descendant
elements in document order, excluding the node itself. -/
def Node.getElementsByTagName (n : Node) (tag : String) : List Node :=
  elemsF tag n.children


/-- The settings namespace produced by `argparse` (the fields the core
uses).  `mode` is a string restricted by `choices=['spectrum', 'contrast']`;
floats are modelled as exact rationals. -/
structure Settings where
  mode : String
  saturation : ℚ
  value : ℚ
  image_size : ℤ
  group_mode : Bool
deriving Repr

/-- The argparse defaults of `KanjiColorizer._init_parser`. -/
def defaultSettings : Settings :=
  { mode := "spectrum", saturation := 0.95, value := 0.75,
    image_size := 327, group_mode := false }

/-- Python `int(q)` on a rational: truncation toward zero. -/
def truncQ (q : ℚ) : ℤ := if 0 ≤ q then ⌊q⌋ else ⌈q⌉

/-- The final six-way branch of `colorsys.hsv_to_rgb`, with `j = i%6` and
`f` as computed there: `p = v*(1-s)`, `q = v*(1-s*f)`, `t = v*(1-s*(1-f))`. -/
def hsvBranch (j : ℤ) (f s v : ℚ) : ℚ × ℚ × ℚ :=
  let p : ℚ := v * (1 - s)
  let q : ℚ := v * (1 - s * f)
  let t : ℚ := v * (1 - s * (1 - f))
  if j = 0 then (v, t, p)
  else if j = 1 then (q, v, p)
  else if j = 2 then (p, v, t)
  else if j = 3 then (p, q, v)
  else if j = 4 then (t, p, v)
  else (v, p, q)

/-- `colorsys.hsv_to_rgb`, translated clause by clause: `if s == 0.0` return
`(v, v, v)`; `i = int(h*6.0)`; `f = (h*6.0) - i`; then the branch on `i%6`. -/
def hsv_to_rgb (h s v : ℚ) : ℚ × ℚ × ℚ :=
  if s = 0 then (v, v, v)
  else hsvBranch (truncQ (h * 6) % 6) (h * 6 - (truncQ (h * 6) : ℚ)) s v

/-- Python `'%02x' % n`: lowercase hex, zero-padded to at least two digits. -/
def pct02x (n : ℕ) : String :=
  let ds := Nat.toDigits 16 n
  if ds.length < 2 then ⟨'0' :: ds⟩ else ⟨ds⟩

/-- One channel of `_hsv_to_rgbhexcode`: `int(i * 255)` of a channel value. -/
def channelByte (c : ℚ) : ℕ := (truncQ (c * 255)).toNat

/-- `KanjiColorizer._hsv_to_rgbhexcode`: convert an h, s, v color into rgb
form `#rrggbb`. -/
def hsv_to_rgbhexcode (h s v : ℚ) : String :=
  let c := hsv_to_rgb h s v
  "#" ++ pct02x (channelByte c.1) ++ pct02x (channelByte c.2.1) ++ pct02x (channelByte c.2.2)

/-- The constant `angle` of `_color_generator` in contrast mode: the literal
`0.618033988749895` (conjugate of the golden ratio), as an exact rational. -/
def contrastAngle : ℚ := 0.618033988749895

/-- `KanjiColorizer._color_generator(n)`: the list of the n colors the
generator yields.  Contrast mode when `settings.mode == "contrast"`, else
spectrum (`float(i)/n`); for n = 0 the loop body — and the division — is
never run. -/
def color_generator (st : Settings) (n : ℕ) : List String :=
  if st.mode == "contrast" then
    (List.range n).map
      (fun i : ℕ => hsv_to_rgbhexcode ((i : ℚ) * contrastAngle) st.saturation st.value)
  else
    (List.range n).map
      (fun i : ℕ => hsv_to_rgbhexcode ((i : ℚ) / (n : ℚ)) st.saturation st.value)

/-- The settings of the doctest `--mode spectrum --saturation 0.95 --value 0.75`. -/
def spectrumTestSettings : Settings :=
  { mode := "spectrum", saturation := 0.95, value := 0.75,
    image_size := 327, group_mode := false }

/-- The settings of the doctest `--mode contrast --saturation 1 --value 1`. -/
def contrastTestSettings : Settings :=
  { mode := "contrast", saturation := 1, value := 1,
    image_size := 327, group_mode := false }

/-- The style string `'stroke: %s;' % color` written to path elements. -/
def strokeStyle (c : String) : String := "stroke: " ++ c ++ ";"

/-- The style string `'fill: %s;' % color` written to text elements. -/
def fillStyle (c : String) : String := "fill: " ++ c ++ ";"

/-- Set-or-replace of the `style` attribute on an element
(`node.attributes['style'] = value`); non-elements are untouched. -/
def Node.setStyle : Node → String → Node
  | .element t a cs, v => .element t (setAttr a "style" v) cs
  | n, _ => n

/-- `KanjiColorizer._stroke_count`: the number of path elements in the svg. -/
def stroke_count (svg : Node) : ℕ := (svg.getElementsByTagName "path").length

mutual
/-- Per-stroke styling walk over one node.  The Python loop walks the flat
`getElementsByTagName` lists of paths and texts, which enumerate elements in
preorder document order; this walk carries the pair (paths seen, texts seen)
and performs the same positional updates: the p-th path element gets
`stroke` style with color p, the t-th text element gets `fill` style with
color t (Python formats a missing color as the string `None`). -/
def strokesN (colors : List String) : Node → ℕ × ℕ → Node × (ℕ × ℕ)
  | .element t a cs, pt =>
      let a1 := if t == "path" then setAttr a "style" (strokeStyle (colors.getD pt.1 "None"))
        else if t == "text" then setAttr a "style" (fillStyle (colors.getD pt.2 "None"))
        else a
      let pt1 : ℕ × ℕ := if t == "path" then (pt.1 + 1, pt.2)
        else if t == "text" then (pt.1, pt.2 + 1)
        else pt
      let r := strokesF colors cs pt1
      (.element t a1 r.1, r.2)
  | n, pt => (n, pt)

/-- Per-stroke styling walk over a list of sibling nodes. -/
def strokesF (colors : List String) : List Node → ℕ × ℕ → List Node × (ℕ × ℕ)
  | [], pt => ([], pt)
  | n :: ns, pt =>
      let r := strokesN colors n pt
      let r2 := strokesF colors ns r.2
      (r.1 :: r2.1, r2.2)
end

/-- `KanjiColorizer._color_svg_strokes`.  The colors are generated from the
stroke count; `itertools.zip_longest(color_iterator, paths, texts)` runs for
the longest of the three lists and dereferences `path.attributes` on every
iteration, so when the flat text list is longer than the flat path list the
padded `None` path raises `AttributeError`; otherwise every path and every
text is styled positionally. -/
def color_svg_strokes (st : Settings) (svg : Node) : Except PyError Node :=
  if (svg.getElementsByTagName "path").length <
      max (color_generator st (stroke_count svg)).length
        (max (svg.getElementsByTagName "path").length
          (svg.getElementsByTagName "text").length) then
    .error .attributeError
  else
    match svg with
    | .element t a cs =>
        .ok (.element t a (strokesF (color_generator st (stroke_count svg)) cs (0, 0)).1)
    | n => .ok n

/-- `_get_direct_paths`: the direct children whose `nodeName` is `path`. -/
def get_direct_paths (n : Node) : List Node :=
  n.children.filter (fun v => v.nodeName == "path")

/-- `_has_direct_path`: whether the element has a direct path child. -/
def has_direct_path (n : Node) : Bool :=
  (get_direct_paths n).length != 0

/-- `_get_nonempty_elements`: all `g` elements (found recursively, in
document order) that carry the given attribute and have at least one direct
path child. -/
def get_nonempty_elements (svg : Node) (attrName : String) : List Node :=
  (svg.getElementsByTagName "g").filter
    (fun v => hasAttr v.attrs attrName && has_direct_path v)

/-- The predicate of `_get_nonempty_elements`, applied to an arbitrary node
(the tag test is implicit there because the candidates come from
`getElementsByTagName('g')`). -/
def qualifiesGroup (attrName : String) (n : Node) : Bool :=
  n.nodeName == "g" && hasAttr n.attrs attrName && has_direct_path n

/-- Which window of the flat text list an index falls into: group 0 consumes
the first `d₀` texts, group 1 the next `d₁`, and so on
(`all_texts[:len(paths)]` slicing per loop iteration). -/
def windowIdx : List ℕ → ℕ → Option ℕ
  | [], _ => none
  | d :: ds, t => if t < d then some 0 else (windowIdx ds (t - d)).map (· + 1)

/-- Styling of the direct path children of one qualifying group: each direct
path child gets the group's stroke style; other children are untouched. -/
def styleDirectPaths (style : String) (cs : List Node) : List Node :=
  cs.map (fun c => if c.nodeName == "path" then c.setStyle style else c)

mutual
/-- Per-group styling walk over one node, carrying (qualifying groups seen,
texts seen).  A qualifying group with preorder index k styles its direct
path children with color k (passed down as `psty`, applied by each direct
child that is a path); the t-th text element in document order gets the
color of the group whose text window contains t. -/
def groupsN (attrName : String) (colors : List String) (counts : List ℕ) :
    Node → Option String → ℕ × ℕ → Node × (ℕ × ℕ)
  | .element t a cs, psty, gt =>
      let isQ := qualifiesGroup attrName (.element t a cs)
      let a1 := if t == "path" then
          match psty with
          | some sty => setAttr a "style" sty
          | none => a
        else if t == "text" then
          match windowIdx counts gt.2 with
          | some k => setAttr a "style" (fillStyle (colors.getD k "None"))
          | none => a
        else a
      let childSty : Option String :=
        if isQ then some (strokeStyle (colors.getD gt.1 "None")) else none
      let gt1 : ℕ × ℕ := (if isQ then gt.1 + 1 else gt.1, if t == "text" then gt.2 + 1 else gt.2)
      let r := groupsF attrName colors counts cs childSty gt1
      (.element t a1 r.1, r.2)
  | n, _, gt => (n, gt)

/-- Per-group styling walk over a list of sibling nodes; `psty` is the
stroke style their parent assigns to its direct path children. -/
def groupsF (attrName : String) (colors : List String) (counts : List ℕ) :
    List Node → Option String → ℕ × ℕ → List Node × (ℕ × ℕ)
  | [], _, gt => ([], gt)
  | n :: ns, psty, gt =>
      let r := groupsN attrName colors counts n psty gt
      let r2 := groupsF attrName colors counts ns psty r.2
      (r.1 :: r2.1, r2.2)
end

/-- `KanjiColorizer._color_svg_groups`: one color per qualifying group; each
group's direct path children get its color as `stroke` style and it consumes
as many labels from the document-order text list as it has direct paths,
giving them the color as `fill` style.  `zip_longest(paths, texts)` never
pads a `None` path here because at most `len(paths)` texts are sliced off,
so this step cannot raise. -/
def color_svg_groups (st : Settings) (svg : Node) : Node :=
  match svg with
  | .element t a cs =>
      .element t a
        (groupsF "kvg:element"
          (color_generator st (get_nonempty_elements svg "kvg:element").length)
          ((get_nonempty_elements svg "kvg:element").map
            (fun g => (get_direct_paths g).length)) cs none (0, 0)).1
  | n => n

/-- The scale ratio written by `_resize_svg`: `float(image_size) / 109`,
modelled as an exact rational (Python prints `repr` of the IEEE float; the
embedding prints the exact rational). -/
def scaleRatio (st : Settings) : ℚ := (st.image_size : ℚ) / 109

/-- The string form of the ratio used inside the `transform` attribute. -/
def ratioStr (st : Settings) : String := toString (scaleRatio st)

/-- `KanjiColorizer._resize_svg`: overwrite the `width`, `height` and
`viewBox` attribute values (`svg.attributes[...].value = ...` raises
`KeyError` when the attribute is absent), then move all children, in
order, into a new `g` element with id `scaleTransform` and a
`transform="scale(ratio,ratio)"` attribute, appended as the only child. -/
def resize_svg (st : Settings) (svg : Node) : Except PyError Node :=
  match svg with
  | .element t a cs =>
      if hasAttr a "width" && hasAttr a "height" && hasAttr a "viewBox" then
        let size := toString st.image_size
        let a1 := setAttr (setAttr (setAttr a "width" size) "height" size)
          "viewBox" ("0 0 " ++ size ++ " " ++ size)
        let scale_g := Node.element "g"
          [("id", "scaleTransform"),
           ("transform", "scale(" ++ ratioStr st ++ "," ++ ratioStr st ++ ")")] cs
        .ok (.element t a1 [scale_g])
      else .error .keyError
  | _ => .error .attributeError

/-- The fixed text of the provenance note up to the mode value: it names
the tool and its source location. -/
def notePrefix : String :=
  "This file has been modified from the original version by the kanji_colorize.py\nscript (available at http://github.com/Darkclainer/kanji-colorize,\nthat is fork of https://github.com/cayennes/kanji-colorize) with these\nsettings:\n    mode: "

/-- The fixed text of the provenance note after the settings. -/
def noteSuffix : String :=
  "\nIt remains under a Creative Commons-Attribution-Share Alike 3.0 License.\n\nThe original SVG has the following copyright:\n\n"

/-- The provenance note of `_comment_copyright`, a function of the
settings: it names the tool, its source location, and the effective mode,
saturation, value and image-size settings. -/
def copyrightNote (st : Settings) : String :=
  notePrefix ++ st.mode ++
  "\n    saturation: " ++ toString st.saturation ++
  "\n    value: " ++ toString st.value ++
  "\n    image_size: " ++ toString st.image_size ++ noteSuffix

/-- `KanjiColorizer._comment_copyright`: find the first comment node among
the document's direct children (`next(filter(...))` raises `StopIteration`
when there is none) and prepend the provenance note to its existing text. -/
def comment_copyright (st : Settings) : List Node → Except PyError (List Node)
  | [] => .error .stopIteration
  | .comment d :: rest => .ok (.comment (copyrightNote st ++ d) :: rest)
  | n :: rest =>
      match comment_copyright st rest with
      | .ok rest' => .ok (n :: rest')
      | .error e => .error e

/-- Python `str.isspace` restricted to the ASCII whitespace characters
(the only ones that occur in the diagrams): nonempty and all whitespace. -/
def pyIsSpaceChar (c : Char) : Bool :=
  c == ' ' || c == '\t' || c == '\n' || c == '\x0d' || c == '\x0b' || c == '\x0c'

/-- Python `data.isspace()` for a text node. -/
def pyIsSpace (s : String) : Bool :=
  s.length != 0 && s.data.all pyIsSpaceChar

mutual
/-- `_remove_empty_text` on one node: recurse into elements. -/
def remove_empty_text_N : Node → Node
  | .element t a cs => .element t a (remove_empty_text_F cs)
  | n => n

/-- `_remove_empty_text` over a child list: remove each whitespace-only
text child, recurse into each element child, keep everything else. -/
def remove_empty_text_F : List Node → List Node
  | [] => []
  | .text d :: rest =>
      if pyIsSpace d then remove_empty_text_F rest
      else .text d :: remove_empty_text_F rest
  | n :: rest => remove_empty_text_N n :: remove_empty_text_F rest
end

/-- Characters allowed in a tag or attribute name by the parser model. -/
def isNameChar (c : Char) : Bool :=
  c.isAlphanum || c == ':' || c == '-' || c == '_' || c == '.'

/-- Split after the first occurrence of a delimiter sequence: returns the
characters before it and the characters after it, or `none` when the
delimiter never occurs. -/
def splitAtSub : List Char → List Char → Option (List Char × List Char)
  | _, [] => none
  | pat, c :: rest =>
      if (c :: rest).take pat.length = pat then some ([], (c :: rest).drop pat.length)
      else match splitAtSub pat rest with
        | some (pre, post) => some (c :: pre, post)
        | none => none

/-- Attribute-list parser: `name="value"` or `name='value'` pairs separated
by whitespace, stopping before `/` or `>`. -/
def parseAttrList : ℕ → List Char → Except String (List (String × String) × List Char)
  | 0, _ => .error "internal error: fuel exhausted"
  | fuel + 1, cs =>
      let cs1 := cs.dropWhile pyIsSpaceChar
      match cs1 with
      | [] => .ok ([], [])
      | c :: _ =>
          if c == '/' || c == '>' then .ok ([], cs1)
          else if isNameChar c then
            let name := (cs1.takeWhile isNameChar).asString
            let cs2 := (cs1.dropWhile isNameChar).dropWhile pyIsSpaceChar
            match cs2 with
            | '=' :: cs3 =>
                match cs3.dropWhile pyIsSpaceChar with
                | q :: cs4 =>
                    if q == '"' || q == '\'' then
                      match splitAtSub [q] cs4 with
                      | some (v, cs5) =>
                          match parseAttrList fuel cs5 with
                          | .ok (more, cs6) => .ok ((name, v.asString) :: more, cs6)
                          | .error e => .error e
                      | none => .error "unclosed token"
                    else .error "not well-formed (invalid token)"
                | [] => .error "unclosed token"
            | _ => .error "not well-formed (invalid token)"
          else .error "not well-formed (invalid token)"

/-- Recursive-descent parser model of `expat` content parsing: returns the
sequence of sibling nodes up to (but not consuming) a closing tag `</`, or
the end of input.  Comments become comment nodes; runs of character data
become text nodes; `<?...?>` sections (the XML declaration) produce no
node; elements recurse and check that the closing tag name matches. -/
def parseContent : ℕ → List Char → Except String (List Node × List Char)
  | 0, _ => .error "internal error: fuel exhausted"
  | fuel + 1, cs =>
      match cs with
      | [] => .ok ([], [])
      | '<' :: '/' :: _ => .ok ([], cs)
      | '<' :: '!' :: '-' :: '-' :: rest =>
          match splitAtSub ['-', '-', '>'] rest with
          | some (d, rest2) =>
              match parseContent fuel rest2 with
              | .ok (ns, rest3) => .ok (Node.comment d.asString :: ns, rest3)
              | .error e => .error e
          | none => .error "unclosed token"
      | '<' :: '?' :: rest =>
          match splitAtSub ['?', '>'] rest with
          | some (_, rest2) => parseContent fuel rest2
          | none => .error "unclosed token"
      | '<' :: rest =>
          let name := (rest.takeWhile isNameChar).asString
          if name.isEmpty then .error "not well-formed (invalid token)"
          else
            match parseAttrList (rest.length + 1) (rest.dropWhile isNameChar) with
            | .error e => .error e
            | .ok (attrList, rest2) =>
                match rest2 with
                | '/' :: '>' :: rest3 =>
                    match parseContent fuel rest3 with
                    | .ok (ns, rest4) => .ok (Node.element name attrList [] :: ns, rest4)
                    | .error e => .error e
                | '>' :: rest3 =>
                    match parseContent fuel rest3 with
                    | .error e => .error e
                    | .ok (children, rest4) =>
                        match rest4 with
                        | '<' :: '/' :: rest5 =>
                            let close := (rest5.takeWhile isNameChar).asString
                            match (rest5.dropWhile isNameChar).dropWhile pyIsSpaceChar with
                            | '>' :: rest6 =>
                                if close == name then
                                  match parseContent fuel rest6 with
                                  | .ok (ns, rest7) =>
                                      .ok (Node.element name attrList children :: ns, rest7)
                                  | .error e => .error e
                                else .error "mismatched tag"
                            | _ => .error "not well-formed (invalid token)"
                        | _ => .error "no element found (unclosed element)"
                | _ => .error "not well-formed (invalid token)"
      | _ =>
          let txt := cs.takeWhile (fun c => c != '<')
          match parseContent fuel (cs.dropWhile (fun c => c != '<')) with
          | .ok (ns, rest2) => .ok (Node.text txt.asString :: ns, rest2)
          | .error e => .error e

/-- Document-level check over the parsed top-level items, mirroring expat:
whitespace-only character data outside the root produces no node, any other
character data is an error, and the document must contain exactly one
top-level element; comments are kept as document children. -/
def docItems (seenRoot : Bool) : List Node → Except String (List Node)
  | [] => if seenRoot then .ok [] else .error "no element found: line 1, column 0"
  | Node.text d :: rest =>
      if pyIsSpace d then docItems seenRoot rest
      else if seenRoot then .error "junk after document element"
      else .error "syntax error"
  | Node.comment d :: rest =>
      match docItems seenRoot rest with
      | .ok ns => .ok (Node.comment d :: ns)
      | .error e => .error e
  | Node.element t a cs :: rest =>
      if seenRoot then .error "junk after document element"
      else
        match docItems true rest with
        | .ok ns => .ok (Node.element t a cs :: ns)
        | .error e => .error e

/-- Model of `minidom.parseString`: parse the text into the document's
child-node list (comments and the single root element), or fail with an
`xml.parsers.expat.ExpatError` message. -/
def parseString (s : String) : Except String (List Node) :=
  match parseContent (s.length + 1) s.data with
  | .error e => .error e
  | .ok (ns, rest) =>
      if rest.isEmpty then docItems false ns
      else .error "junk after document element"

/-- Escaping of character data by minidom's serializer. -/
def escText (s : String) : String :=
  String.join (s.data.map (fun c =>
    if c == '&' then "&amp;" else if c == '<' then "&lt;"
    else if c == '>' then "&gt;" else String.singleton c))

/-- Escaping of attribute values by minidom's serializer. -/
def escAttr (s : String) : String :=
  String.join (s.data.map (fun c =>
    if c == '&' then "&amp;" else if c == '<' then "&lt;"
    else if c == '>' then "&gt;" else if c == '"' then "&quot;"
    else String.singleton c))

mutual
/-- Model of minidom `writexml` on one node with pretty printing
(indent `"\t"`, newline `"\n"`): a sole text child is written inline,
otherwise children go on indented lines of their own. -/
def writeN (ind : String) : Node → String
  | .element t a cs =>
      let attrsStr := String.join (a.map (fun p => " " ++ p.1 ++ "=\"" ++ escAttr p.2 ++ "\""))
      match cs with
      | [] => ind ++ "<" ++ t ++ attrsStr ++ "/>\n"
      | [.text d] => ind ++ "<" ++ t ++ attrsStr ++ ">" ++ escText d ++ "</" ++ t ++ ">\n"
      | _ => ind ++ "<" ++ t ++ attrsStr ++ ">\n" ++ writeF (ind ++ "\t") cs ++
          ind ++ "</" ++ t ++ ">\n"
  | .text d => ind ++ escText d ++ "\n"
  | .comment d => ind ++ "<!--" ++ d ++ "-->\n"

/-- `writexml` over a list of sibling nodes. -/
def writeF (ind : String) : List Node → String
  | [] => ""
  | n :: ns => writeN ind n ++ writeF ind ns
end

/-- Model of `dom.toprettyxml(encoding='UTF-8', newl='\n').decode()`. -/
def toprettyxml (dom : List Node) : String :=
  "<?xml version=\"1.0\" encoding=\"UTF-8\"?>\n" ++ writeF "" dom

mutual
/-- Apply a fallible transformation to the first element with the given tag
in preorder document order (the element the Python code aliases as `svg`
and mutates in place); the boolean reports whether it was found. -/
def mapFirstN (tag : String) (f : Node → Except PyError Node) :
    Node → Except PyError (Node × Bool)
  | .element t a cs =>
      if t == tag then
        match f (.element t a cs) with
        | .ok n => .ok (n, true)
        | .error e => .error e
      else
        match mapFirstF tag f cs with
        | .ok r => .ok (.element t a r.1, r.2)
        | .error e => .error e
  | n => .ok (n, false)

/-- `mapFirstN` over a list of sibling nodes. -/
def mapFirstF (tag : String) (f : Node → Except PyError Node) :
    List Node → Except PyError (List Node × Bool)
  | [] => .ok ([], false)
  | n :: ns =>
      match mapFirstN tag f n with
      | .error e => .error e
      | .ok (n', true) => .ok (n' :: ns, true)
      | .ok (n', false) =>
          match mapFirstF tag f ns with
          | .ok r => .ok (n' :: r.1, r.2)
          | .error e => .error e
end

/-- `KanjiColorizer._modify_svg`: parse (`ExpatError` on failure), strip
whitespace-only text nodes, locate `dom.getElementsByTagName('svg')[0]`
(`IndexError` when the document has no svg element anywhere), color it
per strokes or per groups, resize it, prepend the provenance note to the
document's first comment, and serialize.  There is no special case for an
empty input string and the module defines no `MalformedDocumentError`. -/
def modify_svg (st : Settings) (src : String) : Except PyError String :=
  match parseString src with
  | .error msg => .error (.expatError msg)
  | .ok dom0 =>
      let dom := remove_empty_text_F dom0
      if (elemsF "svg" dom).isEmpty then .error .indexError
      else
        match mapFirstF "svg"
            (fun svg =>
              match (if st.group_mode then .ok (color_svg_groups st svg)
                     else color_svg_strokes st svg) with
              | .ok svg1 => resize_svg st svg1
              | .error e => .error e) dom with
        | .error e => .error e
        | .ok r =>
            match comment_copyright st r.1 with
            | .ok dom2 => .ok (toprettyxml dom2)
            | .error e => .error e

/-- Modelled from the spec: the repository code under `src/` contains no
grid feature (no `enableGrid`, `gridColor` or grid-offset setting, and no
code building a grid overlay); only the spec describes it.  Following the
spec's words: a new group with id "Grid" containing a vertical guide line
from (55, offset) to (55, 109−offset), a horizontal guide line from
(offset, 55) to (109−offset, 55), and a bounding rectangle at
(offset, offset) of side 109−2·offset with transparent fill, all stroked
in the grid color at width 0.5 with a 5,5 dash pattern. -/
def gridGroup (gridColor : String) (offset : ℤ) : Node :=
  let lineSty := "stroke:" ++ gridColor ++ ";stroke-width:0.5;stroke-dasharray:5,5"
  Node.element "g" [("id", "Grid")]
    [Node.element "line"
      [("x1", "55"), ("y1", toString offset),
       ("x2", "55"), ("y2", toString (109 - offset)), ("style", lineSty)] [],
     Node.element "line"
      [("x1", toString offset), ("y1", "55"),
       ("x2", toString (109 - offset)), ("y2", "55"), ("style", lineSty)] [],
     Node.element "rect"
      [("x", toString offset), ("y", toString offset),
       ("width", toString (109 - 2 * offset)), ("height", toString (109 - 2 * offset)),
       ("fill", "none"), ("style", lineSty)] []]

/-- Modelled from the spec: insert the grid group as the FIRST child of the
root element when the grid overlay is enabled. -/
def add_grid (gridColor : String) (offset : ℤ) : Node → Node
  | .element t a cs => .element t a (gridGroup gridColor offset :: cs)
  | n => n

/-- Positional map: entry i is transformed by `f` at global index k + i.
Used to state what the styling walks do to the flat document-order element
lists. -/
def idxStyleMap {α : Type} (f : ℕ → α → α) : ℕ → List α → List α
  | _, [] => []
  | k, a :: rest => f k a :: idxStyleMap f (k + 1) rest

/-- What `_color_svg_strokes` does to the k-th path's attributes. -/
def strokeAt (colors : List String) (k : ℕ) (a : List (String × String)) :
    List (String × String) :=
  setAttr a "style" (strokeStyle (colors.getD k "None"))

/-- What `_color_svg_strokes` does to the k-th text's attributes. -/
def fillAt (colors : List String) (k : ℕ) (a : List (String × String)) :
    List (String × String) :=
  setAttr a "style" (fillStyle (colors.getD k "None"))

/-- What `_color_svg_groups` does to the k-th text's attributes: filled with
the color of the group whose label window contains k, untouched when k lies
beyond all windows. -/
def groupFillAt (colors : List String) (counts : List ℕ) (k : ℕ)
    (a : List (String × String)) : List (String × String) :=
  match windowIdx counts k with
  | some g => setAttr a "style" (fillStyle (colors.getD g "None"))
  | none => a

/-- Attribute transformation a node applies to itself when its parent
passed down a pending direct-path style and the node is a path. -/
def applyPstyAttrs (psty : Option String) (a : List (String × String)) :
    List (String × String) :=
  match psty with
  | some sty => setAttr a "style" sty
  | none => a

/-- The `_get_nonempty_elements` selection restricted to the subtree of one
node (the node itself included when it matches). -/
def qualGroupsN (attrName : String) (n : Node) : List Node :=
  (elemsN "g" n).filter (fun v => hasAttr v.attrs attrName && has_direct_path v)

/-- The `_get_nonempty_elements` selection over a forest. -/
def qualGroups (attrName : String) (ns : List Node) : List Node :=
  (elemsF "g" ns).filter (fun v => hasAttr v.attrs attrName && has_direct_path v)

/-- The attribute lists of the direct path children of a node. -/
def dpAttrs (n : Node) : List (List (String × String)) :=
  (get_direct_paths n).map Node.attrs

/-- The attribute lists of the top-level path nodes of a forest (the direct
path children of their common parent). -/
def directPathAttrs (ns : List Node) : List (List (String × String)) :=
  (ns.filter (fun v => v.nodeName == "path")).map Node.attrs

/-- What `_color_svg_groups` does to the direct-path attribute lists of the
k-th qualifying group: every direct path child gets the group's color. -/
def groupStrokeAt (colors : List String) (k : ℕ)
    (l : List (List (String × String))) : List (List (String × String)) :=
  l.map (fun a => setAttr a "style" (strokeStyle (colors.getD k "None")))

/-- The doctest fixture `<svg><path /><path /><text >1</text><text >2</text></svg>`. -/
def strokesFixture : Node :=
  Node.element "svg" []
    [Node.element "path" [] [], Node.element "path" [] [],
     Node.element "text" [] [Node.text "1"], Node.element "text" [] [Node.text "2"]]

/-- A group-mode fixture: an outer qualifying group with one direct path
child containing a nested qualifying group with one direct path child,
plus two stroke-number labels. -/
def groupsFixture : Node :=
  Node.element "svg" []
    [Node.element "g" [("kvg:element", "a")]
      [Node.element "path" [("d", "p1")] [],
       Node.element "g" [("kvg:element", "b")]
        [Node.element "path" [("d", "p2")] []]],
     Node.element "text" [] [Node.text "1"],
     Node.element "text" [] [Node.text "2"]]

/-- The doctest fixture of `_resize_svg`:
`<svg  width="109" height="109" viewBox="0 0 109 109"><g id="a"><path /></g></svg>`. -/
def resizeFixture : Node :=
  Node.element "svg"
    [("width", "109"), ("height", "109"), ("viewBox", "0 0 109 109")]
    [Node.element "g" [("id", "a")] [Node.element "path" [] []]]

/-!  Theorems.  -/

mutual
/-- A custom induction principle for `Node` (nested inductive). -/
theorem node_ind (P : Node → Prop) (Q : List Node → Prop)
    (he : ∀ t a cs, Q cs → P (.element t a cs))
    (ht : ∀ d, P (.text d)) (hc : ∀ d, P (.comment d))
    (hnil : Q []) (hcons : ∀ n ns, P n → Q ns → Q (n :: ns)) :
    ∀ n : Node, P n
  | .element t a cs => he t a cs (forest_ind P Q he ht hc hnil hcons cs)
  | .text d => ht d
  | .comment d => hc d

/-- A custom induction principle for lists of `Node`s, mutual with
`node_ind`. -/
theorem forest_ind (P : Node → Prop) (Q : List Node → Prop)
    (he : ∀ t a cs, Q cs → P (.element t a cs))
    (ht : ∀ d, P (.text d)) (hc : ∀ d, P (.comment d))
    (hnil : Q []) (hcons : ∀ n ns, P n → Q ns → Q (n :: ns)) :
    ∀ ns : List Node, Q ns
  | [] => hnil
  | n :: ns => hcons n ns (node_ind P Q he ht hc hnil hcons n)
      (forest_ind P Q he ht hc hnil hcons ns)
end

/-- The generator always yields exactly as many colors as requested. -/
theorem color_generator_length (st : Settings) (n : ℕ) :
    (color_generator st n).length = n := by
  unfold color_generator
  split <;> simp

/-- In spectrum mode the i-th color is the hex form of hue i/n with the
configured saturation and value. -/
theorem color_generator_spectrum_getD (st : Settings) (hm : st.mode ≠ "contrast")
    (n i : ℕ) (hi : i < n) :
    (color_generator st n).getD i "" =
      hsv_to_rgbhexcode ((i : ℚ) / (n : ℚ)) st.saturation st.value := by
  unfold color_generator
  rw [if_neg (by simpa using hm)]
  rw [List.getD_eq_getElem?_getD, List.getElem?_map, List.getElem?_range hi]
  rfl

/-- In contrast mode the i-th color is the hex form of hue i·angle with the
configured saturation and value, independently of n. -/
theorem color_generator_contrast_getD (st : Settings) (hm : st.mode = "contrast")
    (n i : ℕ) (hi : i < n) :
    (color_generator st n).getD i "" =
      hsv_to_rgbhexcode ((i : ℚ) * contrastAngle) st.saturation st.value := by
  unfold color_generator
  rw [if_pos (by simpa using hm)]
  rw [List.getD_eq_getElem?_getD, List.getElem?_map, List.getElem?_range hi]
  rfl

/-- Python `int()` agrees with the floor on non-negative arguments. -/
theorem trunc_eq_floor (q : ℚ) (h : 0 ≤ q) : truncQ q = ⌊q⌋ := if_pos h

/-- `colorsys.hsv_to_rgb` only depends on the hue modulo 1 (for
non-negative hue): the truncated `i` enters only through `i % 6` and `f`. -/
theorem hsv_to_rgb_fract (h s v : ℚ) (h0 : 0 ≤ h) :
    hsv_to_rgb (Int.fract h) s v = hsv_to_rgb h s v := by
  unfold hsv_to_rgb
  rcases eq_or_ne s 0 with hs | hs
  · simp [hs]
  · rw [if_neg hs, if_neg hs]
    have h6 : (0 : ℚ) ≤ h * 6 := by positivity
    have hf : (0 : ℚ) ≤ Int.fract h := Int.fract_nonneg h
    have h6' : (0 : ℚ) ≤ Int.fract h * 6 := by positivity
    rw [trunc_eq_floor _ h6, trunc_eq_floor _ h6']
    have hmul : Int.fract h * 6 = h * 6 - ((6 * ⌊h⌋ : ℤ) : ℚ) := by
      rw [Int.fract]
      push_cast
      ring
    have hfl : ⌊Int.fract h * 6⌋ = ⌊h * 6⌋ - 6 * ⌊h⌋ := by
      rw [hmul, Int.floor_sub_int]
    have hj : (⌊h * 6⌋ - 6 * ⌊h⌋) % 6 = ⌊h * 6⌋ % 6 := by omega
    have hff : Int.fract h * 6 - ((⌊h * 6⌋ - 6 * ⌊h⌋ : ℤ) : ℚ) =
        h * 6 - ((⌊h * 6⌋ : ℤ) : ℚ) := by
      rw [Int.fract]
      push_cast
      ring
    rw [hfl, hj, hff]

/-- Hue modulo 1 carried through to the hex code. -/
theorem hsv_to_rgbhexcode_fract (h s v : ℚ) (h0 : 0 ≤ h) :
    hsv_to_rgbhexcode (Int.fract h) s v = hsv_to_rgbhexcode h s v := by
  unfold hsv_to_rgbhexcode
  rw [hsv_to_rgb_fract h s v h0]

/-- Concrete evaluation: hue 0, saturation 0.95, value 0.75. -/
theorem hexcode_spectrum_0 : hsv_to_rgbhexcode 0 (19/20) (3/4) = "#bf0909" := by
  have h1 : hsv_to_rgb 0 (19/20) (3/4) = (3/4, 3/80, 3/80) := by
    simp only [hsv_to_rgb, hsvBranch, truncQ]
    norm_num
  simp only [hsv_to_rgbhexcode, h1, channelByte, truncQ]
  norm_num
  rfl

/-- Concrete evaluation: hue 1/2, saturation 0.95, value 0.75. -/
theorem hexcode_spectrum_half : hsv_to_rgbhexcode (1/2) (19/20) (3/4) = "#09bfbf" := by
  have h1 : hsv_to_rgb (1/2) (19/20) (3/4) = (3/80, 3/4, 3/4) := by
    simp only [hsv_to_rgb, hsvBranch, truncQ]
    norm_num
  simp only [hsv_to_rgbhexcode, h1, channelByte, truncQ]
  norm_num
  rfl

/-- Concrete evaluation: hue 0, full saturation and value. -/
theorem hexcode_contrast_0 : hsv_to_rgbhexcode 0 1 1 = "#ff0000" := by
  have h1 : hsv_to_rgb 0 1 1 = (1, 0, 0) := by
    simp only [hsv_to_rgb, hsvBranch, truncQ]
    norm_num
  simp only [hsv_to_rgbhexcode, h1, channelByte, truncQ]
  norm_num
  rfl

/-- Concrete evaluation: hue `contrastAngle`, full saturation and value. -/
theorem hexcode_contrast_1 : hsv_to_rgbhexcode contrastAngle 1 1 = "#004aff" := by
  have h1 : hsv_to_rgb contrastAngle 1 1 =
      (0, 291796067500630 / 1000000000000000, 1) := by
    simp only [hsv_to_rgb, hsvBranch, truncQ, contrastAngle]
    norm_num
  simp only [hsv_to_rgbhexcode, h1, channelByte, truncQ]
  norm_num
  rfl

/-- Concrete evaluation: hue `2 * contrastAngle`, full saturation and value. -/
theorem hexcode_contrast_2 : hsv_to_rgbhexcode (2 * contrastAngle) 1 1 = "#94ff00" := by
  have h1 : hsv_to_rgb (2 * contrastAngle) 1 1 =
      (583592135001260 / 1000000000000000, 1, 0) := by
    simp only [hsv_to_rgb, hsvBranch, truncQ, contrastAngle]
    norm_num
  simp only [hsv_to_rgbhexcode, h1, channelByte, truncQ]
  norm_num
  rfl

/-- C3: Spectrum color generation: for every non-negative integer n,
`_color_generator(n)` in spectrum mode yields exactly n colors, the i-th
(0-indexed) color having hue i/n with the configured saturation and value;
for n = 0 it yields the empty sequence (the division is never evaluated
because the loop body never runs); and at saturation 0.95 and value 0.75,
generating 2 colors yields ["#bf0909", "#09bfbf"]. -/
theorem claim_C3_spectrum_generation (st : Settings) (n : ℕ) (hm : st.mode ≠ "contrast") :
    (color_generator st n).length = n ∧
    (∀ i : ℕ, i < n →
      (color_generator st n).getD i "" =
        hsv_to_rgbhexcode ((i : ℚ) / (n : ℚ)) st.saturation st.value) ∧
    color_generator st 0 = [] ∧
    color_generator spectrumTestSettings 2 = ["#bf0909", "#09bfbf"] := by
  refine ⟨color_generator_length st n,
    fun i hi => color_generator_spectrum_getD st hm n i hi, by
      unfold color_generator
      split <;> simp, ?_⟩
  unfold color_generator
  have h2 : List.range 2 = [0, 1] := by decide
  simp only [h2, List.map_cons, List.map_nil, beq_iff_eq]
  rw [if_neg (by decide : ¬ spectrumTestSettings.mode = "contrast")]
  simp only [spectrumTestSettings]
  norm_num
  exact ⟨hexcode_spectrum_0, hexcode_spectrum_half⟩

/-- C3 witness: the theorem applied at the default settings and n = 2. -/
theorem claim_C3_spectrum_generation_witness :
    defaultSettings.mode ≠ "contrast" ∧
    ((color_generator defaultSettings 2).length = 2 ∧
    (∀ i : ℕ, i < 2 →
      (color_generator defaultSettings 2).getD i "" =
        hsv_to_rgbhexcode ((i : ℚ) / ((2 : ℕ) : ℚ)) defaultSettings.saturation
          defaultSettings.value) ∧
    color_generator defaultSettings 0 = [] ∧
    color_generator spectrumTestSettings 2 = ["#bf0909", "#09bfbf"]) :=
  ⟨by decide, claim_C3_spectrum_generation defaultSettings 2 (by decide)⟩

/-- C4: Contrast color generation: for every n and every i < n the i-th
color of `_color_generator(n)` in contrast mode is the hex form of hue
(i · 0.618033988749895) mod 1 with the configured saturation and value
(the mod 1 being performed inside `colorsys.hsv_to_rgb`); the i-th color
depends only on i and not on n; and at saturation 1 and value 1,
generating 3 colors yields ["#ff0000", "#004aff", "#94ff00"]. -/
theorem claim_C4_contrast_generation (st : Settings) (n i : ℕ)
    (hm : st.mode = "contrast") (hi : i < n) :
    (color_generator st n).getD i "" =
      hsv_to_rgbhexcode (Int.fract ((i : ℚ) * contrastAngle)) st.saturation st.value ∧
    (∀ m : ℕ, i < m →
      (color_generator st n).getD i "" = (color_generator st m).getD i "") ∧
    color_generator contrastTestSettings 3 = ["#ff0000", "#004aff", "#94ff00"] := by
  have hpos : (0 : ℚ) ≤ (i : ℚ) * contrastAngle := by
    have : (0 : ℚ) ≤ contrastAngle := by norm_num [contrastAngle]
    positivity
  refine ⟨by
      rw [color_generator_contrast_getD st hm n i hi,
        hsv_to_rgbhexcode_fract _ _ _ hpos],
    fun m him => by
      rw [color_generator_contrast_getD st hm n i hi,
        color_generator_contrast_getD st hm m i him], ?_⟩
  unfold color_generator
  have h3 : List.range 3 = [0, 1, 2] := by decide
  simp only [h3, List.map_cons, List.map_nil, beq_iff_eq]
  rw [if_pos (by decide : contrastTestSettings.mode = "contrast")]
  simp only [contrastTestSettings]
  norm_num
  rw [hexcode_contrast_0, hexcode_contrast_1, hexcode_contrast_2]
  exact ⟨rfl, rfl, rfl⟩

/-- C4 witness: the theorem applied at contrast settings, n = 3, i = 1. -/
theorem claim_C4_contrast_generation_witness :
    contrastTestSettings.mode = "contrast" ∧ 1 < 3 ∧
    ((color_generator contrastTestSettings 3).getD 1 "" =
      hsv_to_rgbhexcode (Int.fract (((1 : ℕ) : ℚ) * contrastAngle))
        contrastTestSettings.saturation contrastTestSettings.value ∧
    (∀ m : ℕ, 1 < m →
      (color_generator contrastTestSettings 3).getD 1 "" =
        (color_generator contrastTestSettings m).getD 1 "") ∧
    color_generator contrastTestSettings 3 = ["#ff0000", "#004aff", "#94ff00"]) :=
  ⟨by decide, by decide,
    claim_C4_contrast_generation contrastTestSettings 3 1 (by decide) (by decide)⟩

/-- `idxStyleMap` has the length of its input. -/
theorem idxStyleMap_length {α : Type} (f : ℕ → α → α)
    (k : ℕ) (xs : List α) :
    (idxStyleMap f k xs).length = xs.length := by
  induction xs generalizing k with
  | nil => rfl
  | cons x xs ih => simp [idxStyleMap, ih]

/-- `idxStyleMap` distributes over append, shifting the start index. -/
theorem idxStyleMap_append {α : Type} (f : ℕ → α → α)
    (k : ℕ) (xs ys : List α) :
    idxStyleMap f k (xs ++ ys) =
      idxStyleMap f k xs ++ idxStyleMap f (k + xs.length) ys := by
  induction xs generalizing k with
  | nil => simp [idxStyleMap]
  | cons x xs ih =>
      show f k x :: idxStyleMap f (k + 1) (xs ++ ys) =
        f k x :: (idxStyleMap f (k + 1) xs ++ idxStyleMap f (k + (xs.length + 1)) ys)
      rw [ih]
      have h : k + 1 + xs.length = k + (xs.length + 1) := by omega
      rw [h]

/-- Entry i of an `idxStyleMap` result, at an in-range index. -/
theorem idxStyleMap_getD {α : Type} (f : ℕ → α → α)
    (k : ℕ) (xs : List α) (d : α) (i : ℕ) (hi : i < xs.length) :
    (idxStyleMap f k xs).getD i d = f (k + i) (xs.getD i d) := by
  induction xs generalizing k i with
  | nil => simp at hi
  | cons x xs ih =>
      cases i with
      | zero => simp [idxStyleMap]
      | succ i =>
          have hi2 : i < xs.length := by simpa using hi
          simp only [idxStyleMap, List.getD_cons_succ, ih (k + 1) i hi2]
          have h : k + 1 + i = k + (i + 1) := by omega
          rw [h]

/-- `elemsN` at an element whose tag matches. -/
theorem elemsN_self (tag : String) (a : List (String × String)) (cs : List Node) :
    elemsN tag (.element tag a cs) = .element tag a cs :: elemsF tag cs := by
  simp [elemsN]

/-- `elemsN` at an element whose tag does not match. -/
theorem elemsN_other (tag tg : String) (a : List (String × String)) (cs : List Node)
    (h : tg ≠ tag) : elemsN tag (.element tg a cs) = elemsF tag cs := by
  simp [elemsN, h]

/-- `strokesN` at a path element. -/
theorem strokesN_path (colors : List String) (a : List (String × String))
    (cs : List Node) (p t : ℕ) :
    strokesN colors (.element "path" a cs) (p, t) =
      (.element "path" (setAttr a "style" (strokeStyle (colors.getD p "None")))
        (strokesF colors cs (p + 1, t)).1,
       (strokesF colors cs (p + 1, t)).2) := by
  simp [strokesN]

/-- `strokesN` at a text element. -/
theorem strokesN_text (colors : List String) (a : List (String × String))
    (cs : List Node) (p t : ℕ) :
    strokesN colors (.element "text" a cs) (p, t) =
      (.element "text" (setAttr a "style" (fillStyle (colors.getD t "None")))
        (strokesF colors cs (p, t + 1)).1,
       (strokesF colors cs (p, t + 1)).2) := by
  simp [strokesN]

/-- `strokesN` at an element that is neither path nor text. -/
theorem strokesN_other (colors : List String) (tg : String)
    (a : List (String × String)) (cs : List Node) (p t : ℕ)
    (hp : tg ≠ "path") (ht : tg ≠ "text") :
    strokesN colors (.element tg a cs) (p, t) =
      (.element tg a (strokesF colors cs (p, t)).1, (strokesF colors cs (p, t)).2) := by
  simp [strokesN, hp, ht]

/-- `strokesF` on a cons. -/
theorem strokesF_cons (colors : List String) (n : Node) (ns : List Node) (pt : ℕ × ℕ) :
    strokesF colors (n :: ns) pt =
      ((strokesN colors n pt).1 :: (strokesF colors ns (strokesN colors n pt).2).1,
       (strokesF colors ns (strokesN colors n pt).2).2) := by
  simp [strokesF]

/-- The per-stroke walk: the final counters add the numbers of path and
text elements walked, the path elements of the output carry the stroke
styles at consecutive global indices, and the text elements carry the fill
styles at consecutive global indices. -/
theorem strokesF_spec (colors : List String) :
    ∀ ns : List Node, ∀ p t : ℕ,
      (strokesF colors ns (p, t)).2 =
        (p + (elemsF "path" ns).length, t + (elemsF "text" ns).length) ∧
      (elemsF "path" (strokesF colors ns (p, t)).1).map Node.attrs =
        idxStyleMap (strokeAt colors) p ((elemsF "path" ns).map Node.attrs) ∧
      (elemsF "text" (strokesF colors ns (p, t)).1).map Node.attrs =
        idxStyleMap (fillAt colors) t ((elemsF "text" ns).map Node.attrs) :=
  forest_ind
    (fun n => ∀ p t : ℕ,
      (strokesN colors n (p, t)).2 =
        (p + (elemsN "path" n).length, t + (elemsN "text" n).length) ∧
      (elemsN "path" (strokesN colors n (p, t)).1).map Node.attrs =
        idxStyleMap (strokeAt colors) p ((elemsN "path" n).map Node.attrs) ∧
      (elemsN "text" (strokesN colors n (p, t)).1).map Node.attrs =
        idxStyleMap (fillAt colors) t ((elemsN "text" n).map Node.attrs))
    (fun ns => ∀ p t : ℕ,
      (strokesF colors ns (p, t)).2 =
        (p + (elemsF "path" ns).length, t + (elemsF "text" ns).length) ∧
      (elemsF "path" (strokesF colors ns (p, t)).1).map Node.attrs =
        idxStyleMap (strokeAt colors) p ((elemsF "path" ns).map Node.attrs) ∧
      (elemsF "text" (strokesF colors ns (p, t)).1).map Node.attrs =
        idxStyleMap (fillAt colors) t ((elemsF "text" ns).map Node.attrs))
    (by
      intro tg a cs ih p t
      by_cases hp : tg = "path"
      · subst hp
        obtain ⟨hc, hpa, hta⟩ := ih (p + 1) t
        rw [strokesN_path]
        refine ⟨?_, ?_, ?_⟩
        · show (strokesF colors cs (p + 1, t)).2 = _
          rw [hc, elemsN_self, elemsN_other "text" "path" a cs (by decide)]
          simp only [List.length_cons, Prod.mk.injEq]
          exact ⟨by omega, trivial⟩
        · rw [elemsN_self, elemsN_self]
          simp only [List.map_cons, idxStyleMap, Node.attrs]
          rw [hpa]
          rfl
        · rw [elemsN_other "text" "path" _ _ (by decide),
            elemsN_other "text" "path" a cs (by decide)]
          exact hta
      · by_cases htx : tg = "text"
        · subst htx
          obtain ⟨hc, hpa, hta⟩ := ih p (t + 1)
          rw [strokesN_text]
          refine ⟨?_, ?_, ?_⟩
          · show (strokesF colors cs (p, t + 1)).2 = _
            rw [hc, elemsN_self, elemsN_other "path" "text" a cs (by decide)]
            simp only [List.length_cons, Prod.mk.injEq]
            exact ⟨trivial, by omega⟩
          · rw [elemsN_other "path" "text" _ _ (by decide),
              elemsN_other "path" "text" a cs (by decide)]
            exact hpa
          · rw [elemsN_self, elemsN_self]
            simp only [List.map_cons, idxStyleMap, Node.attrs]
            rw [hta]
            rfl
        · obtain ⟨hc, hpa, hta⟩ := ih p t
          rw [strokesN_other colors tg a cs p t hp htx]
          refine ⟨?_, ?_, ?_⟩
          · rw [elemsN_other "path" tg _ _ hp, elemsN_other "text" tg _ _ htx]
            exact hc
          · rw [elemsN_other "path" tg _ _ hp, elemsN_other "path" tg _ _ hp]
            exact hpa
          · rw [elemsN_other "text" tg _ _ htx, elemsN_other "text" tg _ _ htx]
            exact hta)
    (by intro d p t; exact ⟨rfl, rfl, rfl⟩)
    (by intro d p t; exact ⟨rfl, rfl, rfl⟩)
    (by intro p t; exact ⟨rfl, rfl, rfl⟩)
    (by
      intro n ns ihn ihns p t
      obtain ⟨hc, hpa, hta⟩ := ihn p t
      obtain ⟨hc2, hpa2, hta2⟩ := ihns (p + (elemsN "path" n).length)
        (t + (elemsN "text" n).length)
      rw [strokesF_cons]
      refine ⟨?_, ?_, ?_⟩
      · show (strokesF colors ns (strokesN colors n (p, t)).2).2 = _
        rw [hc, hc2]
        simp only [elemsF, List.length_append, Prod.mk.injEq]
        omega
      · simp only [elemsF, List.map_append, idxStyleMap_append, List.length_map]
        rw [hc, hpa, hpa2]
      · simp only [elemsF, List.map_append, idxStyleMap_append, List.length_map]
        rw [hc, hta, hta2])

/-- Looking up an attribute just set yields the new value. -/
theorem lookupAttr_setAttr (a : List (String × String)) (k v : String) :
    lookupAttr (setAttr a k v) k = some v := by
  induction a with
  | nil => simp [setAttr, lookupAttr]
  | cons p rest ih =>
      by_cases h : p.1 = k
      · simp [setAttr, lookupAttr, h]
      · simpa [setAttr, lookupAttr, List.find?, h] using ih

/-- `getD` of a mapped attribute list, at an in-range index. -/
theorem map_attrs_getD (l : List Node) (i : ℕ) (hi : i < l.length) :
    (l.map Node.attrs).getD i [] = (l.getD i (Node.text "")).attrs := by
  rw [List.getD_eq_getElem?_getD, List.getElem?_map, List.getD_eq_getElem?_getD,
    List.getElem?_eq_getElem hi]
  rfl

/-- C10: Implicit precondition of per-stroke coloring: `_color_svg_strokes`
succeeds exactly when the document has at least as many path elements as
text elements; with more texts than paths the `zip_longest` walk pads the
path position with `None` and raises, so the error branch is unreachable
precisely under #texts ≤ #paths. -/
theorem claim_C10_strokes_precondition (st : Settings) (svg : Node) :
    (∃ out, color_svg_strokes st svg = .ok out) ↔
      (svg.getElementsByTagName "text").length ≤
        (svg.getElementsByTagName "path").length := by
  unfold color_svg_strokes
  rw [color_generator_length,
    show stroke_count svg = (svg.getElementsByTagName "path").length from rfl]
  constructor
  · rintro ⟨out, hout⟩
    by_contra hlt
    push_neg at hlt
    rw [if_pos (by omega)] at hout
    exact absurd hout (by simp)
  · intro hle
    rw [if_neg (by omega)]
    cases svg with
    | element t a cs => exact ⟨_, rfl⟩
    | text d => exact ⟨_, rfl⟩
    | comment d => exact ⟨_, rfl⟩

/-- C10 witness: on the doctest fixture (2 paths, 2 texts) the success case
of the equivalence applies. -/
theorem claim_C10_strokes_precondition_witness :
    ∃ out, color_svg_strokes defaultSettings strokesFixture = .ok out :=
  (claim_C10_strokes_precondition defaultSettings strokesFixture).mpr (by decide)

/-- C1: Per-stroke coloring: with groupMode off the transformer counts all
path elements, generates exactly that many colors, and walks the flat
document-order path and text lists pairwise: the i-th path's style becomes
the stroke style with the i-th color, and when an i-th text exists its
style becomes the fill style with the same i-th color; trailing paths (when
there are more paths than texts) still receive stroke styles and no text
beyond the available count is touched.  Stated under the precondition
#texts ≤ #paths, under which the walk succeeds (see C10). -/
theorem claim_C1_per_stroke_coloring (st : Settings) (svg : Node)
    (h : (svg.getElementsByTagName "text").length ≤
      (svg.getElementsByTagName "path").length) :
    ∃ out, color_svg_strokes st svg = .ok out ∧
      (color_generator st (stroke_count svg)).length =
        (svg.getElementsByTagName "path").length ∧
      (out.getElementsByTagName "path").length =
        (svg.getElementsByTagName "path").length ∧
      (out.getElementsByTagName "text").length =
        (svg.getElementsByTagName "text").length ∧
      (∀ i : ℕ, i < (svg.getElementsByTagName "path").length →
        ((out.getElementsByTagName "path").getD i (Node.text "")).getAttribute "style" =
          some (strokeStyle ((color_generator st (stroke_count svg)).getD i "None"))) ∧
      (∀ i : ℕ, i < (svg.getElementsByTagName "text").length →
        ((out.getElementsByTagName "text").getD i (Node.text "")).getAttribute "style" =
          some (fillStyle ((color_generator st (stroke_count svg)).getD i "None"))) := by
  cases svg with
  | text d =>
      have heval : color_svg_strokes st (Node.text d) = .ok (Node.text d) := by
        have hL : (color_generator st (stroke_count (Node.text d))).length = 0 := by
          rw [color_generator_length]
          rfl
        unfold color_svg_strokes
        rw [if_neg (by
          simp only [Node.getElementsByTagName, Node.children, elemsF, List.length_nil]
          omega)]
      exact ⟨Node.text d, heval, color_generator_length st _, rfl, rfl,
        fun i hi => absurd hi (by simp [Node.getElementsByTagName, Node.children, elemsF]),
        fun i hi => absurd hi (by simp [Node.getElementsByTagName, Node.children, elemsF])⟩
  | comment d =>
      have heval : color_svg_strokes st (Node.comment d) = .ok (Node.comment d) := by
        have hL : (color_generator st (stroke_count (Node.comment d))).length = 0 := by
          rw [color_generator_length]
          rfl
        unfold color_svg_strokes
        rw [if_neg (by
          simp only [Node.getElementsByTagName, Node.children, elemsF, List.length_nil]
          omega)]
      exact ⟨Node.comment d, heval, color_generator_length st _, rfl, rfl,
        fun i hi => absurd hi (by simp [Node.getElementsByTagName, Node.children, elemsF]),
        fun i hi => absurd hi (by simp [Node.getElementsByTagName, Node.children, elemsF])⟩
  | element tg a cs =>
      have hLen : (color_generator st (stroke_count (Node.element tg a cs))).length =
          ((Node.element tg a cs).getElementsByTagName "path").length := by
        rw [color_generator_length]
        rfl
      have heval : color_svg_strokes st (Node.element tg a cs) =
          .ok (Node.element tg a
            (strokesF (color_generator st (stroke_count (Node.element tg a cs))) cs (0, 0)).1) := by
        unfold color_svg_strokes
        rw [if_neg (by omega)]
      obtain ⟨hcnt, hpa, hta⟩ :=
        strokesF_spec (color_generator st (stroke_count (Node.element tg a cs))) cs 0 0
      have hplen : (elemsF "path"
          (strokesF (color_generator st (stroke_count (Node.element tg a cs))) cs (0, 0)).1
          ).length = (elemsF "path" cs).length := by
        have hl := congrArg List.length hpa
        simpa [idxStyleMap_length] using hl
      have htlen : (elemsF "text"
          (strokesF (color_generator st (stroke_count (Node.element tg a cs))) cs (0, 0)).1
          ).length = (elemsF "text" cs).length := by
        have hl := congrArg List.length hta
        simpa [idxStyleMap_length] using hl
      refine ⟨_, heval, hLen, hplen, htlen, ?_, ?_⟩
      · intro i hi
        have hi0 : i < (elemsF "path" cs).length := hi
        have hi2 : i < (elemsF "path"
            (strokesF (color_generator st (stroke_count (Node.element tg a cs))) cs (0, 0)).1
            ).length := by omega
        have step : (List.map Node.attrs (elemsF "path"
            (strokesF (color_generator st (stroke_count (Node.element tg a cs))) cs (0, 0)).1
            )).getD i [] =
            (idxStyleMap (strokeAt (color_generator st (stroke_count (Node.element tg a cs)))) 0
              (List.map Node.attrs (elemsF "path" cs))).getD i [] := by
          rw [hpa]
        rw [map_attrs_getD _ i hi2,
          idxStyleMap_getD _ 0 _ [] i (by simpa using hi0)] at step
        show lookupAttr ((elemsF "path"
          (strokesF (color_generator st (stroke_count (Node.element tg a cs))) cs (0, 0)).1
          ).getD i (Node.text "")).attrs "style" = _
        rw [step]
        simp only [strokeAt, Nat.zero_add]
        exact lookupAttr_setAttr _ _ _
      · intro i hi
        have hi0 : i < (elemsF "text" cs).length := hi
        have hi2 : i < (elemsF "text"
            (strokesF (color_generator st (stroke_count (Node.element tg a cs))) cs (0, 0)).1
            ).length := by omega
        have step : (List.map Node.attrs (elemsF "text"
            (strokesF (color_generator st (stroke_count (Node.element tg a cs))) cs (0, 0)).1
            )).getD i [] =
            (idxStyleMap (fillAt (color_generator st (stroke_count (Node.element tg a cs)))) 0
              (List.map Node.attrs (elemsF "text" cs))).getD i [] := by
          rw [hta]
        rw [map_attrs_getD _ i hi2,
          idxStyleMap_getD _ 0 _ [] i (by simpa using hi0)] at step
        show lookupAttr ((elemsF "text"
          (strokesF (color_generator st (stroke_count (Node.element tg a cs))) cs (0, 0)).1
          ).getD i (Node.text "")).attrs "style" = _
        rw [step]
        simp only [fillAt, Nat.zero_add]
        exact lookupAttr_setAttr _ _ _

/-- C1 witness: the theorem applied to the doctest fixture (2 paths, 2
texts) at the default settings. -/
theorem claim_C1_per_stroke_coloring_witness :
    (strokesFixture.getElementsByTagName "text").length ≤
      (strokesFixture.getElementsByTagName "path").length ∧
    (∃ out, color_svg_strokes defaultSettings strokesFixture = .ok out ∧
      (color_generator defaultSettings (stroke_count strokesFixture)).length =
        (strokesFixture.getElementsByTagName "path").length ∧
      (out.getElementsByTagName "path").length =
        (strokesFixture.getElementsByTagName "path").length ∧
      (out.getElementsByTagName "text").length =
        (strokesFixture.getElementsByTagName "text").length ∧
      (∀ i : ℕ, i < (strokesFixture.getElementsByTagName "path").length →
        ((out.getElementsByTagName "path").getD i (Node.text "")).getAttribute "style" =
          some (strokeStyle ((color_generator defaultSettings
            (stroke_count strokesFixture)).getD i "None"))) ∧
      (∀ i : ℕ, i < (strokesFixture.getElementsByTagName "text").length →
        ((out.getElementsByTagName "text").getD i (Node.text "")).getAttribute "style" =
          some (fillStyle ((color_generator defaultSettings
            (stroke_count strokesFixture)).getD i "None")))) :=
  ⟨by decide, claim_C1_per_stroke_coloring defaultSettings strokesFixture (by decide)⟩

/-- `groupsN` at a path element: the pending parent style is applied, no
counter moves, children walk with no pending style. -/
theorem groupsN_path (attrName : String) (colors : List String) (counts : List ℕ)
    (a : List (String × String)) (cs : List Node) (psty : Option String) (g t : ℕ) :
    groupsN attrName colors counts (.element "path" a cs) psty (g, t) =
      (.element "path" (applyPstyAttrs psty a)
        (groupsF attrName colors counts cs none (g, t)).1,
       (groupsF attrName colors counts cs none (g, t)).2) := by
  cases psty <;> simp [groupsN, qualifiesGroup, Node.nodeName, applyPstyAttrs]

/-- `groupsN` at a text element: the fill style of its window's group is
applied and the text counter advances. -/
theorem groupsN_text (attrName : String) (colors : List String) (counts : List ℕ)
    (a : List (String × String)) (cs : List Node) (psty : Option String) (g t : ℕ) :
    groupsN attrName colors counts (.element "text" a cs) psty (g, t) =
      (.element "text" (groupFillAt colors counts t a)
        (groupsF attrName colors counts cs none (g, t + 1)).1,
       (groupsF attrName colors counts cs none (g, t + 1)).2) := by
  simp [groupsN, qualifiesGroup, Node.nodeName, groupFillAt]

/-- `groupsN` at a qualifying group: the group counter advances and the
children walk with the group's stroke style pending. -/
theorem groupsN_qual (attrName : String) (colors : List String) (counts : List ℕ)
    (a : List (String × String)) (cs : List Node) (psty : Option String) (g t : ℕ)
    (hq : qualifiesGroup attrName (.element "g" a cs) = true) :
    groupsN attrName colors counts (.element "g" a cs) psty (g, t) =
      (.element "g" a (groupsF attrName colors counts cs
          (some (strokeStyle (colors.getD g "None"))) (g + 1, t)).1,
       (groupsF attrName colors counts cs
          (some (strokeStyle (colors.getD g "None"))) (g + 1, t)).2) := by
  simp [groupsN, hq]

/-- `groupsN` at any other element: nothing is styled and no counter moves. -/
theorem groupsN_nonqual (attrName : String) (colors : List String) (counts : List ℕ)
    (tg : String) (a : List (String × String)) (cs : List Node) (psty : Option String)
    (g t : ℕ) (hp : tg ≠ "path") (ht : tg ≠ "text")
    (hq : qualifiesGroup attrName (.element tg a cs) = false) :
    groupsN attrName colors counts (.element tg a cs) psty (g, t) =
      (.element tg a (groupsF attrName colors counts cs none (g, t)).1,
       (groupsF attrName colors counts cs none (g, t)).2) := by
  simp [groupsN, hq, hp, ht]

/-- `groupsF` on a cons. -/
theorem groupsF_cons (attrName : String) (colors : List String) (counts : List ℕ)
    (n : Node) (ns : List Node) (psty : Option String) (gt : ℕ × ℕ) :
    groupsF attrName colors counts (n :: ns) psty gt =
      ((groupsN attrName colors counts n psty gt).1 ::
        (groupsF attrName colors counts ns psty
          (groupsN attrName colors counts n psty gt).2).1,
       (groupsF attrName colors counts ns psty
          (groupsN attrName colors counts n psty gt).2).2) := by
  simp [groupsF]

/-- `qualGroups` on a cons. -/
theorem qualGroups_cons (attrName : String) (n : Node) (ns : List Node) :
    qualGroups attrName (n :: ns) = qualGroupsN attrName n ++ qualGroups attrName ns := by
  simp [qualGroups, qualGroupsN, elemsF, List.filter_append]

/-- `qualGroupsN` at a group element. -/
theorem qualGroupsN_g (attrName : String) (a : List (String × String)) (cs : List Node) :
    qualGroupsN attrName (.element "g" a cs) =
      (if hasAttr a attrName && has_direct_path (.element "g" a cs)
        then [Node.element "g" a cs] else []) ++ qualGroups attrName cs := by
  rw [qualGroupsN, elemsN_self, List.filter_cons]
  split
  · rename_i hcond
    rw [if_pos (by simpa [Node.attrs] using hcond)]
    rfl
  · rename_i hcond
    rw [if_neg (by simpa [Node.attrs] using hcond)]
    rfl

/-- `qualGroupsN` at a non-group element. -/
theorem qualGroupsN_other (attrName tg : String) (a : List (String × String))
    (cs : List Node) (h : tg ≠ "g") :
    qualGroupsN attrName (.element tg a cs) = qualGroups attrName cs := by
  rw [qualGroupsN, elemsN_other "g" tg a cs h]
  rfl

/-- `qualGroupsN` at a text or comment node. -/
theorem qualGroupsN_leaf (attrName : String) (n : Node)
    (h : n.children = [] ∧ (elemsN "g" n = [])) :
    qualGroupsN attrName n = [] := by
  simp [qualGroupsN, h.2]

/-- `directPathAttrs` on a cons. -/
theorem directPathAttrs_cons (n : Node) (ns : List Node) :
    directPathAttrs (n :: ns) =
      (if n.nodeName == "path" then [n.attrs] else []) ++ directPathAttrs ns := by
  rw [directPathAttrs, List.filter_cons]
  split
  · simp [directPathAttrs]
  · simp [directPathAttrs]

/-- Two forests with the same node names have the same number of top-level
path nodes. -/
theorem filter_path_length (l₁ l₂ : List Node)
    (h : l₁.map Node.nodeName = l₂.map Node.nodeName) :
    (l₁.filter (fun v => v.nodeName == "path")).length =
      (l₂.filter (fun v => v.nodeName == "path")).length := by
  have h2 := congrArg (List.countP (fun s => s == "path")) h
  rw [List.countP_map, List.countP_map] at h2
  simpa [List.countP_eq_length_filter, Function.comp] using h2

/-- `has_direct_path` only depends on the node names of the children. -/
theorem has_direct_path_congr (tg tg' : String) (a a' : List (String × String))
    (cs cs' : List Node) (h : cs'.map Node.nodeName = cs.map Node.nodeName) :
    has_direct_path (.element tg' a' cs') = has_direct_path (.element tg a cs) := by
  have := filter_path_length cs' cs h
  simp only [has_direct_path, get_direct_paths, Node.children]
  rw [this]

/-- The per-group walk: final counters add the numbers of qualifying groups
and text elements walked; the text elements of the output carry the fill
styles of their windows; the qualifying groups of the output carry, on
their direct path children, the stroke style of their global group index;
top-level path nodes carry the pending parent style; node names are
preserved. -/
theorem groupsF_spec (attrName : String) (colors : List String) (counts : List ℕ) :
    ∀ ns : List Node, ∀ psty : Option String, ∀ g t : ℕ,
      (groupsF attrName colors counts ns psty (g, t)).2 =
        (g + (qualGroups attrName ns).length, t + (elemsF "text" ns).length) ∧
      (elemsF "text" (groupsF attrName colors counts ns psty (g, t)).1).map Node.attrs =
        idxStyleMap (groupFillAt colors counts) t ((elemsF "text" ns).map Node.attrs) ∧
      (qualGroups attrName (groupsF attrName colors counts ns psty (g, t)).1).map dpAttrs =
        idxStyleMap (groupStrokeAt colors) g ((qualGroups attrName ns).map dpAttrs) ∧
      directPathAttrs (groupsF attrName colors counts ns psty (g, t)).1 =
        (directPathAttrs ns).map (applyPstyAttrs psty) ∧
      (groupsF attrName colors counts ns psty (g, t)).1.map Node.nodeName =
        ns.map Node.nodeName :=
  forest_ind
    (fun n => ∀ psty : Option String, ∀ g t : ℕ,
      (groupsN attrName colors counts n psty (g, t)).2 =
        (g + (qualGroupsN attrName n).length, t + (elemsN "text" n).length) ∧
      (elemsN "text" (groupsN attrName colors counts n psty (g, t)).1).map Node.attrs =
        idxStyleMap (groupFillAt colors counts) t ((elemsN "text" n).map Node.attrs) ∧
      (qualGroupsN attrName (groupsN attrName colors counts n psty (g, t)).1).map dpAttrs =
        idxStyleMap (groupStrokeAt colors) g ((qualGroupsN attrName n).map dpAttrs) ∧
      (groupsN attrName colors counts n psty (g, t)).1.nodeName = n.nodeName ∧
      (n.nodeName = "path" →
        (groupsN attrName colors counts n psty (g, t)).1.attrs =
          applyPstyAttrs psty n.attrs))
    (fun ns => ∀ psty : Option String, ∀ g t : ℕ,
      (groupsF attrName colors counts ns psty (g, t)).2 =
        (g + (qualGroups attrName ns).length, t + (elemsF "text" ns).length) ∧
      (elemsF "text" (groupsF attrName colors counts ns psty (g, t)).1).map Node.attrs =
        idxStyleMap (groupFillAt colors counts) t ((elemsF "text" ns).map Node.attrs) ∧
      (qualGroups attrName (groupsF attrName colors counts ns psty (g, t)).1).map dpAttrs =
        idxStyleMap (groupStrokeAt colors) g ((qualGroups attrName ns).map dpAttrs) ∧
      directPathAttrs (groupsF attrName colors counts ns psty (g, t)).1 =
        (directPathAttrs ns).map (applyPstyAttrs psty) ∧
      (groupsF attrName colors counts ns psty (g, t)).1.map Node.nodeName =
        ns.map Node.nodeName)
    (by
      intro tg a cs ih psty g t
      by_cases hpath : tg = "path"
      · subst hpath
        obtain ⟨hc, hb, hcq, _, _⟩ := ih none g t
        rw [groupsN_path]
        refine ⟨?_, ?_, ?_, rfl, fun _ => rfl⟩
        · rw [hc, qualGroupsN_other attrName "path" a cs (by decide),
            elemsN_other "text" "path" a cs (by decide)]
        · rw [elemsN_other "text" "path" _ _ (by decide),
            elemsN_other "text" "path" a cs (by decide)]
          exact hb
        · rw [qualGroupsN_other attrName "path" _ _ (by decide),
            qualGroupsN_other attrName "path" a cs (by decide)]
          exact hcq
      · by_cases htext : tg = "text"
        · subst htext
          obtain ⟨hc, hb, hcq, _, _⟩ := ih none g (t + 1)
          rw [groupsN_text]
          refine ⟨?_, ?_, ?_, rfl, fun h => by simp [Node.nodeName] at h⟩
          · rw [hc, qualGroupsN_other attrName "text" a cs (by decide),
              elemsN_self]
            simp only [List.length_cons, Prod.mk.injEq]
            exact ⟨trivial, by omega⟩
          · rw [elemsN_self, elemsN_self]
            simp only [List.map_cons, idxStyleMap, Node.attrs]
            rw [hb]
          · rw [qualGroupsN_other attrName "text" _ _ (by decide),
              qualGroupsN_other attrName "text" a cs (by decide)]
            exact hcq
        · by_cases hq : qualifiesGroup attrName (.element tg a cs) = true
          · have hg : tg = "g" := by
              by_contra hg
              rw [qualifiesGroup] at hq
              simp [Node.nodeName, hg] at hq
            subst hg
            have hcomp : hasAttr a attrName = true ∧
                has_direct_path (.element "g" a cs) = true := by
              rw [qualifiesGroup] at hq
              simpa [Node.nodeName] using hq
            obtain ⟨hce, hbe, hcqe, hdpe, hnne⟩ :=
              ih (some (strokeStyle (colors.getD g "None"))) (g + 1) t
            rw [groupsN_qual attrName colors counts a cs psty g t hq]
            have hqout : (hasAttr a attrName &&
                has_direct_path (.element "g" a
                  (groupsF attrName colors counts cs
                    (some (strokeStyle (colors.getD g "None"))) (g + 1, t)).1)) = true := by
              rw [has_direct_path_congr "g" "g" a a cs _ hnne]
              simp [hcomp.1, hcomp.2]
            refine ⟨?_, ?_, ?_, rfl, fun h => by simp [Node.nodeName] at h⟩
            · rw [hce, qualGroupsN_g, elemsN_other "text" "g" a cs (by decide)]
              rw [if_pos (by simp [hcomp.1, hcomp.2])]
              simp only [List.length_append, List.length_cons, List.length_nil,
                Prod.mk.injEq]
              exact ⟨by omega, trivial⟩
            · rw [elemsN_other "text" "g" _ _ (by decide),
                elemsN_other "text" "g" a cs (by decide)]
              exact hbe
            · rw [qualGroupsN_g, qualGroupsN_g, if_pos hqout,
                if_pos (by simp [hcomp.1, hcomp.2])]
              simp only [List.cons_append, List.nil_append, List.map_cons, idxStyleMap]
              rw [hcqe]
              have hhead : dpAttrs (Node.element "g" a
                  (groupsF attrName colors counts cs
                    (some (strokeStyle (colors.getD g "None"))) (g + 1, t)).1) =
                  groupStrokeAt colors g (dpAttrs (Node.element "g" a cs)) := by
                show directPathAttrs (groupsF attrName colors counts cs
                  (some (strokeStyle (colors.getD g "None"))) (g + 1, t)).1 = _
                rw [hdpe]
                rfl
              rw [hhead]
              simp
          · obtain ⟨hc, hb, hcq, _, _⟩ := ih none g t
            rw [groupsN_nonqual attrName colors counts tg a cs psty g t hpath htext
              (by simpa using hq)]
            have hqgn : ∀ cs' : List Node,
                cs'.map Node.nodeName = cs.map Node.nodeName →
                qualGroupsN attrName (.element tg a cs') = qualGroups attrName cs' := by
              intro cs' hns
              by_cases hg : tg = "g"
              · subst hg
                rw [qualGroupsN_g]
                rw [if_neg (by
                  rw [has_direct_path_congr "g" "g" a a cs cs' hns]
                  intro hcontra
                  exact hq (by simpa [qualifiesGroup, Node.nodeName] using hcontra))]
                rfl
              · exact qualGroupsN_other attrName tg a cs' hg
            refine ⟨?_, ?_, ?_, rfl, fun h => by
              simp only [Node.nodeName] at h
              exact absurd h hpath⟩
            · rw [hc, hqgn cs rfl, elemsN_other "text" tg a cs htext]
            · rw [elemsN_other "text" tg _ _ htext, elemsN_other "text" tg a cs htext]
              exact hb
            · obtain ⟨_, _, _, _, hnn⟩ := ih none g t
              rw [hqgn _ hnn, hqgn cs rfl]
              exact hcq)
    (by
      intro d psty g t
      exact ⟨rfl, rfl, rfl, rfl, fun h => by simp [Node.nodeName] at h⟩)
    (by
      intro d psty g t
      exact ⟨rfl, rfl, rfl, rfl, fun h => by simp [Node.nodeName] at h⟩)
    (by intro psty g t; exact ⟨rfl, rfl, rfl, rfl, rfl⟩)
    (by
      intro n ns ihn ihns psty g t
      obtain ⟨hc, hb, hcq, hnn, hpat⟩ := ihn psty g t
      obtain ⟨hc2, hb2, hcq2, hdp2, hnn2⟩ := ihns psty (g + (qualGroupsN attrName n).length)
        (t + (elemsN "text" n).length)
      rw [groupsF_cons]
      refine ⟨?_, ?_, ?_, ?_, ?_⟩
      · show (groupsF attrName colors counts ns psty
          (groupsN attrName colors counts n psty (g, t)).2).2 = _
        rw [hc, hc2, qualGroups_cons]
        simp only [elemsF, List.length_append, Prod.mk.injEq]
        exact ⟨by omega, by omega⟩
      · simp only [elemsF, List.map_append, idxStyleMap_append, List.length_map]
        rw [hc, hb, hb2]
      · rw [qualGroups_cons attrName n ns,
          qualGroups_cons attrName ((groupsN attrName colors counts n psty (g, t)).1)
            ((groupsF attrName colors counts ns psty
              (groupsN attrName colors counts n psty (g, t)).2).1)]
        simp only [List.map_append, idxStyleMap_append, List.length_map]
        rw [hc, hcq, hcq2]
      · rw [directPathAttrs_cons, directPathAttrs_cons, hnn, hc]
        simp only [List.map_append]
        rw [hdp2]
        by_cases hpn : (n.nodeName == "path") = true
        · rw [if_pos hpn, if_pos hpn]
          simp only [List.cons_append, List.nil_append]
          rw [hpat (by simpa using hpn)]
          rfl
        · rw [if_neg hpn, if_neg hpn]
          rfl
      · show ((groupsN attrName colors counts n psty (g, t)).1 ::
          (groupsF attrName colors counts ns psty
            (groupsN attrName colors counts n psty (g, t)).2).1).map Node.nodeName = _
        simp only [List.map_cons]
        rw [hnn, hc, hnn2])

/-- `windowIdx` finds the group whose label window contains the index:
group k's window is [sum of the first k counts, sum of the first k+1
counts), exactly the slice `all_texts[:len(paths)]` consumed in the k-th
loop iteration. -/
theorem windowIdx_spec (counts : List ℕ) :
    ∀ j k : ℕ, windowIdx counts j = some k ↔
      k < counts.length ∧ (counts.take k).sum ≤ j ∧ j < (counts.take (k + 1)).sum := by
  induction counts with
  | nil => intro j k; simp [windowIdx]
  | cons d ds ih =>
      intro j k
      rw [windowIdx]
      by_cases hj : j < d
      · rw [if_pos hj]
        cases k with
        | zero => simp [hj]
        | succ k =>
            simp only [Option.some.injEq, List.length_cons, List.take_succ_cons,
              List.sum_cons]
            constructor
            · intro hcontra
              exact absurd hcontra (by omega)
            · rintro ⟨-, hlow, -⟩
              omega
      · rw [if_neg hj]
        cases k with
        | zero =>
            simp only [Option.map_eq_some', List.take_succ_cons, List.take_zero,
              List.sum_cons, List.sum_nil]
            constructor
            · rintro ⟨a, -, hcontra⟩
              exact absurd hcontra (by omega)
            · rintro ⟨-, -, hcontra⟩
              omega
        | succ k =>
            simp only [Option.map_eq_some', List.length_cons, List.take_succ_cons,
              List.sum_cons]
            constructor
            · rintro ⟨a, ha, hk⟩
              obtain ⟨h1, h2, h3⟩ := (ih (j - d) a).mp ha
              have hak : a = k := by omega
              subst hak
              exact ⟨by omega, by omega, by omega⟩
            · rintro ⟨h1, h2, h3⟩
              refine ⟨k, (ih (j - d) k).mpr ⟨by omega, by omega, by omega⟩, rfl⟩

/-- `getD` through a `map`, at an in-range index. -/
theorem map_getD_of_lt {α β : Type} (l : List β) (f : β → α) (d : α) (e : β)
    (i : ℕ) (hi : i < l.length) :
    (l.map f).getD i d = f (l.getD i e) := by
  rw [List.getD_eq_getElem?_getD, List.getElem?_map, List.getElem?_eq_getElem hi,
    List.getD_eq_getElem?_getD, List.getElem?_eq_getElem hi]
  rfl

/-- `get_nonempty_elements` is the `qualGroups` selection over the node's
children. -/
theorem get_nonempty_elements_eq (n : Node) (attrName : String) :
    get_nonempty_elements n attrName = qualGroups attrName n.children := rfl

/-- C2: Per-group coloring: the qualifying groups are exactly the `g`
elements, found recursively anywhere in the tree, that carry the grouping
attribute `kvg:element` and have at least one DIRECT path child; one color
is generated per qualifying group; the k-th qualifying group's direct path
children all get color k as `stroke` style; and the j-th text element of
the single flat document-order text list gets, as `fill` style, the color
of the group whose label window contains j — group k's window being the
counts[k] labels after the first counts[0]+…+counts[k−1], where counts[k]
is group k's direct-path count (texts beyond all windows are untouched). -/
theorem claim_C2_per_group_coloring (st : Settings) (svg : Node) :
    (color_generator st (get_nonempty_elements svg "kvg:element").length).length =
      (get_nonempty_elements svg "kvg:element").length ∧
    (get_nonempty_elements (color_svg_groups st svg) "kvg:element").length =
      (get_nonempty_elements svg "kvg:element").length ∧
    (∀ k : ℕ, k < (get_nonempty_elements svg "kvg:element").length →
      dpAttrs ((get_nonempty_elements (color_svg_groups st svg) "kvg:element").getD k
          (Node.text "")) =
        groupStrokeAt
          (color_generator st (get_nonempty_elements svg "kvg:element").length) k
          (dpAttrs ((get_nonempty_elements svg "kvg:element").getD k (Node.text "")))) ∧
    ((color_svg_groups st svg).getElementsByTagName "text").length =
      (svg.getElementsByTagName "text").length ∧
    (∀ j : ℕ, j < (svg.getElementsByTagName "text").length →
      (((color_svg_groups st svg).getElementsByTagName "text").getD j
          (Node.text "")).attrs =
        groupFillAt (color_generator st (get_nonempty_elements svg "kvg:element").length)
          ((get_nonempty_elements svg "kvg:element").map
            (fun gn => (get_direct_paths gn).length)) j
          ((svg.getElementsByTagName "text").getD j (Node.text "")).attrs) ∧
    (∀ j k : ℕ,
      windowIdx ((get_nonempty_elements svg "kvg:element").map
        (fun gn => (get_direct_paths gn).length)) j = some k ↔
      k < ((get_nonempty_elements svg "kvg:element").map
        (fun gn => (get_direct_paths gn).length)).length ∧
      (((get_nonempty_elements svg "kvg:element").map
        (fun gn => (get_direct_paths gn).length)).take k).sum ≤ j ∧
      j < (((get_nonempty_elements svg "kvg:element").map
        (fun gn => (get_direct_paths gn).length)).take (k + 1)).sum) := by
  cases svg with
  | text d =>
      exact ⟨color_generator_length st _, rfl,
        fun k hk => absurd hk (by simp [get_nonempty_elements_eq, qualGroups,
          Node.children, elemsF]),
        rfl,
        fun j hj => absurd hj (by simp [Node.getElementsByTagName, Node.children, elemsF]),
        fun j k => windowIdx_spec _ j k⟩
  | comment d =>
      exact ⟨color_generator_length st _, rfl,
        fun k hk => absurd hk (by simp [get_nonempty_elements_eq, qualGroups,
          Node.children, elemsF]),
        rfl,
        fun j hj => absurd hj (by simp [Node.getElementsByTagName, Node.children, elemsF]),
        fun j k => windowIdx_spec _ j k⟩
  | element tg a cs =>
      obtain ⟨hc, hb, hcq, hdp, hnn⟩ := groupsF_spec "kvg:element"
        (color_generator st
          (get_nonempty_elements (Node.element tg a cs) "kvg:element").length)
        ((get_nonempty_elements (Node.element tg a cs) "kvg:element").map
          (fun g => (get_direct_paths g).length)) cs none 0 0
      have hqlen : (qualGroups "kvg:element"
          (groupsF "kvg:element"
            (color_generator st
              (get_nonempty_elements (Node.element tg a cs) "kvg:element").length)
            ((get_nonempty_elements (Node.element tg a cs) "kvg:element").map
              (fun g => (get_direct_paths g).length)) cs none (0, 0)).1).length =
          (qualGroups "kvg:element" cs).length := by
        have hl := congrArg List.length hcq
        simpa [idxStyleMap_length] using hl
      have htlen : (elemsF "text"
          (groupsF "kvg:element"
            (color_generator st
              (get_nonempty_elements (Node.element tg a cs) "kvg:element").length)
            ((get_nonempty_elements (Node.element tg a cs) "kvg:element").map
              (fun g => (get_direct_paths g).length)) cs none (0, 0)).1).length =
          (elemsF "text" cs).length := by
        have hl := congrArg List.length hb
        simpa [idxStyleMap_length] using hl
      refine ⟨color_generator_length st _, hqlen, ?_, htlen, ?_, fun j k => windowIdx_spec _ j k⟩
      · intro k hk
        have hk0 : k < (qualGroups "kvg:element" cs).length := hk
        have hk2 : k < (qualGroups "kvg:element"
            (groupsF "kvg:element"
              (color_generator st
                (get_nonempty_elements (Node.element tg a cs) "kvg:element").length)
              ((get_nonempty_elements (Node.element tg a cs) "kvg:element").map
                (fun g => (get_direct_paths g).length)) cs none (0, 0)).1).length := by
          omega
        have step : ((qualGroups "kvg:element"
            (groupsF "kvg:element"
              (color_generator st
                (get_nonempty_elements (Node.element tg a cs) "kvg:element").length)
              ((get_nonempty_elements (Node.element tg a cs) "kvg:element").map
                (fun g => (get_direct_paths g).length)) cs none (0, 0)).1).map dpAttrs
            ).getD k [] =
            (idxStyleMap (groupStrokeAt
              (color_generator st
                (get_nonempty_elements (Node.element tg a cs) "kvg:element").length)) 0
              ((qualGroups "kvg:element" cs).map dpAttrs)).getD k [] := by
          rw [hcq]
        rw [map_getD_of_lt _ dpAttrs [] (Node.text "") k hk2,
          idxStyleMap_getD _ 0 _ [] k (by simpa using hk0),
          map_getD_of_lt _ dpAttrs [] (Node.text "") k hk0] at step
        simpa using step
      · intro j hj
        have hj0 : j < (elemsF "text" cs).length := hj
        have hj2 : j < (elemsF "text"
            (groupsF "kvg:element"
              (color_generator st
                (get_nonempty_elements (Node.element tg a cs) "kvg:element").length)
              ((get_nonempty_elements (Node.element tg a cs) "kvg:element").map
                (fun g => (get_direct_paths g).length)) cs none (0, 0)).1).length := by
          omega
        have step : ((elemsF "text"
            (groupsF "kvg:element"
              (color_generator st
                (get_nonempty_elements (Node.element tg a cs) "kvg:element").length)
              ((get_nonempty_elements (Node.element tg a cs) "kvg:element").map
                (fun g => (get_direct_paths g).length)) cs none (0, 0)).1).map Node.attrs
            ).getD j [] =
            (idxStyleMap (groupFillAt
              (color_generator st
                (get_nonempty_elements (Node.element tg a cs) "kvg:element").length)
              ((get_nonempty_elements (Node.element tg a cs) "kvg:element").map
                (fun g => (get_direct_paths g).length))) 0
              ((elemsF "text" cs).map Node.attrs)).getD j [] := by
          rw [hb]
        rw [map_getD_of_lt _ Node.attrs [] (Node.text "") j hj2,
          idxStyleMap_getD _ 0 _ [] j (by simpa using hj0),
          map_getD_of_lt _ Node.attrs [] (Node.text "") j hj0] at step
        simpa using step

/-- C2 witness: on the nested-groups fixture both nested groups qualify;
the first group's direct path gets color 0. -/
theorem claim_C2_per_group_coloring_witness :
    0 < (get_nonempty_elements groupsFixture "kvg:element").length ∧
    dpAttrs ((get_nonempty_elements (color_svg_groups defaultSettings groupsFixture)
        "kvg:element").getD 0 (Node.text "")) =
      groupStrokeAt
        (color_generator defaultSettings
          (get_nonempty_elements groupsFixture "kvg:element").length) 0
        (dpAttrs ((get_nonempty_elements groupsFixture "kvg:element").getD 0
          (Node.text ""))) :=
  ⟨by decide,
    (claim_C2_per_group_coloring defaultSettings groupsFixture).2.2.1 0 (by decide)⟩

/-- Setting one attribute leaves the others unchanged. -/
theorem lookupAttr_setAttr_ne (a : List (String × String)) (k k2 v : String)
    (h : k2 ≠ k) : lookupAttr (setAttr a k2 v) k = lookupAttr a k := by
  have hb : (k2 == k) = false := beq_eq_false_iff_ne.mpr h
  have hb2 : (k == k2) = false := beq_eq_false_iff_ne.mpr (Ne.symm h)
  induction a with
  | nil => simp [setAttr, lookupAttr, List.find?, hb, hb2]
  | cons p rest ih =>
      by_cases hp : p.1 = k2
      · simp [setAttr, lookupAttr, List.find?, hp, hb, hb2]
      · have hpb : (p.1 == k2) = false := beq_eq_false_iff_ne.mpr hp
        by_cases hk : p.1 = k
        · simp [setAttr, lookupAttr, List.find?, hpb, hk, hb, hb2]
        · have hkb : (p.1 == k) = false := beq_eq_false_iff_ne.mpr hk
          simpa [setAttr, lookupAttr, List.find?, hpb, hkb, hb, hb2] using ih

/-- C5 counterexample: the claim quantifies over every parsed document with
a root drawing element, but a root `<svg/>` without a `width` attribute
makes `svg.attributes['width']` raise `KeyError`: nothing is set and the
stage fails instead of resizing. -/
theorem claim_C5_resize_counterexample :
    resize_svg { defaultSettings with image_size := 100 }
      (Node.element "svg" [] []) = .error PyError.keyError ∧
    ∀ out : Node, resize_svg { defaultSettings with image_size := 100 }
      (Node.element "svg" [] []) ≠ .ok out := by
  constructor
  · rfl
  · intro out h
    exact absurd h (by simp [resize_svg, hasAttr, List.find?])

/-- C5 (amended): for every root element that carries `width`, `height` and
`viewBox` attributes, `_resize_svg` overwrites those three attribute values
with the target size (viewBox `"0 0 ts ts"`), moves ALL existing children,
in order, into one single new `g` element with id `scaleTransform` and a
`transform="scale(r,r)"` attribute where r = targetSize / 109, and changes
nothing else (the original children appear verbatim inside the new group). -/
theorem claim_C5_resize (st : Settings) (tg : String) (a : List (String × String))
    (cs : List Node) (hw : hasAttr a "width" = true) (hh : hasAttr a "height" = true)
    (hv : hasAttr a "viewBox" = true) :
    resize_svg st (.element tg a cs) = .ok (.element tg
      (setAttr (setAttr (setAttr a "width" (toString st.image_size)) "height"
        (toString st.image_size)) "viewBox"
        ("0 0 " ++ toString st.image_size ++ " " ++ toString st.image_size))
      [Node.element "g"
        [("id", "scaleTransform"),
         ("transform", "scale(" ++ ratioStr st ++ "," ++ ratioStr st ++ ")")] cs]) ∧
    lookupAttr (setAttr (setAttr (setAttr a "width" (toString st.image_size)) "height"
        (toString st.image_size)) "viewBox"
        ("0 0 " ++ toString st.image_size ++ " " ++ toString st.image_size))
      "width" = some (toString st.image_size) ∧
    lookupAttr (setAttr (setAttr (setAttr a "width" (toString st.image_size)) "height"
        (toString st.image_size)) "viewBox"
        ("0 0 " ++ toString st.image_size ++ " " ++ toString st.image_size))
      "height" = some (toString st.image_size) ∧
    lookupAttr (setAttr (setAttr (setAttr a "width" (toString st.image_size)) "height"
        (toString st.image_size)) "viewBox"
        ("0 0 " ++ toString st.image_size ++ " " ++ toString st.image_size))
      "viewBox" = some ("0 0 " ++ toString st.image_size ++ " " ++ toString st.image_size) ∧
    scaleRatio st = (st.image_size : ℚ) / 109 := by
  refine ⟨?_, ?_, ?_, ?_, rfl⟩
  · simp only [resize_svg]
    rw [if_pos (by simp [hw, hh, hv])]
  · rw [lookupAttr_setAttr_ne _ _ "viewBox" _ (by decide),
      lookupAttr_setAttr_ne _ _ "height" _ (by decide)]
    exact lookupAttr_setAttr a "width" _
  · rw [lookupAttr_setAttr_ne _ _ "viewBox" _ (by decide)]
    exact lookupAttr_setAttr _ "height" _
  · exact lookupAttr_setAttr _ "viewBox" _

/-- C5 witness: the amended theorem applied to the doctest fixture at image
size 100. -/
theorem claim_C5_resize_witness :
    hasAttr [("width", "109"), ("height", "109"), ("viewBox", "0 0 109 109")]
      "width" = true ∧
    resize_svg { defaultSettings with image_size := 100 } resizeFixture = .ok
      (.element "svg"
        (setAttr (setAttr (setAttr
          [("width", "109"), ("height", "109"), ("viewBox", "0 0 109 109")]
          "width" (toString ({ defaultSettings with image_size := 100 } : Settings).image_size))
          "height" (toString ({ defaultSettings with image_size := 100 } : Settings).image_size))
          "viewBox" ("0 0 " ++ toString ({ defaultSettings with image_size := 100 } : Settings).image_size ++
            " " ++ toString ({ defaultSettings with image_size := 100 } : Settings).image_size))
        [Node.element "g"
          [("id", "scaleTransform"),
           ("transform", "scale(" ++ ratioStr { defaultSettings with image_size := 100 } ++ "," ++
             ratioStr { defaultSettings with image_size := 100 } ++ ")")]
          [Node.element "g" [("id", "a")] [Node.element "path" [] []]]]) :=
  ⟨by decide,
    (claim_C5_resize { defaultSettings with image_size := 100 } "svg"
      [("width", "109"), ("height", "109"), ("viewBox", "0 0 109 109")]
      [Node.element "g" [("id", "a")] [Node.element "path" [] []]]
      (by decide) (by decide) (by decide)).1⟩

/-- `_comment_copyright` prepends the note to the first comment among the
document's direct children, leaving every other child unchanged. -/
theorem comment_copyright_eq (st : Settings) (pre : List Node) (d : String)
    (rest : List Node) (hpre : ∀ n ∈ pre, n.nodeName ≠ "#comment") :
    comment_copyright st (pre ++ Node.comment d :: rest) =
      .ok (pre ++ Node.comment (copyrightNote st ++ d) :: rest) := by
  induction pre with
  | nil => rfl
  | cons n pre ih =>
      have ih2 := ih (fun m hm => hpre m (List.mem_cons_of_mem _ hm))
      cases n with
      | comment d2 => exact absurd rfl (hpre (Node.comment d2) (by simp))
      | element t a cs =>
          rw [List.cons_append]
          simp only [comment_copyright]
          rw [ih2]
          rfl
      | text d2 =>
          rw [List.cons_append]
          simp only [comment_copyright]
          rw [ih2]
          rfl

/-- C6: Copyright annotation: `_comment_copyright` locates the first
comment node among the document's direct children and prepends the
provenance note — which names the tool and the effective mode, saturation,
value and image-size settings — to that comment's existing text, never
replacing it (the original text is a suffix of the result); running the
annotation twice yields the note appearing twice, each run prepending in
front of the previous text. -/
theorem claim_C6_comment_copyright (st : Settings) (pre : List Node) (d : String)
    (rest : List Node) (hpre : ∀ n ∈ pre, n.nodeName ≠ "#comment") :
    comment_copyright st (pre ++ Node.comment d :: rest) =
      .ok (pre ++ Node.comment (copyrightNote st ++ d) :: rest) ∧
    (∃ p : String, copyrightNote st ++ d = p ++ d) ∧
    (∃ s1 s2 : String, copyrightNote st = s1 ++ st.mode ++ s2) ∧
    (∃ s1 s2 : String, copyrightNote st = s1 ++ toString st.saturation ++ s2) ∧
    (∃ s1 s2 : String, copyrightNote st = s1 ++ toString st.value ++ s2) ∧
    (∃ s1 s2 : String, copyrightNote st = s1 ++ toString st.image_size ++ s2) ∧
    comment_copyright st (pre ++ Node.comment (copyrightNote st ++ d) :: rest) =
      .ok (pre ++ Node.comment (copyrightNote st ++ (copyrightNote st ++ d)) :: rest) := by
  refine ⟨comment_copyright_eq st pre d rest hpre, ⟨copyrightNote st, rfl⟩,
    ⟨notePrefix, "\n    saturation: " ++ toString st.saturation ++ "\n    value: " ++
      toString st.value ++ "\n    image_size: " ++ toString st.image_size ++ noteSuffix,
      by simp [copyrightNote, String.append_assoc]⟩,
    ⟨notePrefix ++ st.mode ++ "\n    saturation: ", "\n    value: " ++
      toString st.value ++ "\n    image_size: " ++ toString st.image_size ++ noteSuffix,
      by simp [copyrightNote, String.append_assoc]⟩,
    ⟨notePrefix ++ st.mode ++ "\n    saturation: " ++ toString st.saturation ++
      "\n    value: ", "\n    image_size: " ++ toString st.image_size ++ noteSuffix,
      by simp [copyrightNote, String.append_assoc]⟩,
    ⟨notePrefix ++ st.mode ++ "\n    saturation: " ++ toString st.saturation ++
      "\n    value: " ++ toString st.value ++ "\n    image_size: ", noteSuffix,
      by simp [copyrightNote, String.append_assoc]⟩,
    comment_copyright_eq st pre (copyrightNote st ++ d) rest hpre⟩

/-- C6 witness: the theorem applied with one non-comment child before the
license comment. -/
theorem claim_C6_comment_copyright_witness :
    (∀ n ∈ [Node.element "svg" [] []], n.nodeName ≠ "#comment") ∧
    comment_copyright defaultSettings
        ([Node.element "svg" [] []] ++ Node.comment "COPY" :: []) =
      .ok ([Node.element "svg" [] []] ++
        Node.comment (copyrightNote defaultSettings ++ "COPY") :: []) :=
  ⟨by decide,
    (claim_C6_comment_copyright defaultSettings [Node.element "svg" [] []] "COPY" []
      (by decide)).1⟩

/-- C7 counterexample: transforming the empty input string is not a no-op
returning the empty string: `minidom.parseString("")` fails (expat: no
element found) and `_modify_svg` has no special case for empty input, so
the transform raises instead of returning `""`. -/
theorem claim_C7_empty_input_counterexample :
    modify_svg defaultSettings "" ≠ .ok "" ∧
    modify_svg defaultSettings "" =
      .error (.expatError "no element found: line 1, column 0") := by
  have h : modify_svg defaultSettings "" =
      .error (.expatError "no element found: line 1, column 0") := rfl
  refine ⟨?_, h⟩
  intro hcontra
  rw [h] at hcontra
  exact Except.noConfusion hcontra

/-- C7 (amended): transforming the empty input string fails with an
`ExpatError` from the parser (no element found) for every settings value;
it does not return `""`. -/
theorem claim_C7_empty_input (st : Settings) :
    modify_svg st "" = .error (.expatError "no element found: line 1, column 0") :=
  rfl

/-- C8 (amended): an input that cannot be parsed makes the transform fail
with the parser's `ExpatError`, surfaced to the caller; a parsed input
without any svg element (anywhere in the tree) makes it fail with
`IndexError` from `getElementsByTagName('svg')[0]`; and the module defines
no `MalformedDocumentError` exception class. -/
theorem claim_C8_malformed_input (st : Settings) :
    (∀ s msg : String, parseString s = .error msg →
      modify_svg st s = .error (.expatError msg)) ∧
    (∀ s : String, ∀ dom : List Node, parseString s = .ok dom →
      elemsF "svg" (remove_empty_text_F dom) = [] →
      modify_svg st s = .error .indexError) ∧
    "MalformedDocumentError" ∉ moduleExceptionClasses := by
  refine ⟨?_, ?_, by decide⟩
  · intro s msg hmsg
    unfold modify_svg
    rw [hmsg]
  · intro s dom hdom hsvg
    unfold modify_svg
    rw [hdom]
    simp [hsvg]

/-- C8 counterexample: the two failure modes carry the library exceptions
(`ExpatError` for unparseable input, `IndexError` for a document with no
svg element), not a `MalformedDocumentError`, which does not exist among
the module's exception classes. -/
theorem claim_C8_malformed_input_counterexample :
    modify_svg defaultSettings "" =
      .error (.expatError "no element found: line 1, column 0") ∧
    modify_svg defaultSettings "<a></a>" = .error .indexError ∧
    "MalformedDocumentError" ∉ moduleExceptionClasses :=
  ⟨rfl, rfl, by decide⟩

/-- C8 witness: the theorem applied at `<a></a>`, a well-formed document
with no svg element. -/
theorem claim_C8_malformed_input_witness :
    parseString "<a></a>" = .ok [Node.element "a" [] []] ∧
    elemsF "svg" (remove_empty_text_F [Node.element "a" [] []]) = [] ∧
    modify_svg defaultSettings "<a></a>" = .error .indexError :=
  ⟨rfl, rfl,
    (claim_C8_malformed_input defaultSettings).2.1 "<a></a>" [Node.element "a" [] []]
      rfl rfl⟩

/-- C9 (spec-modelled; no grid code exists under `src/`): with the grid
enabled, a new group with id "Grid" is built containing a vertical guide
line from (55, offset) to (55, 109−offset), a horizontal guide line from
(offset, 55) to (109−offset, 55), and a bounding rectangle at
(offset, offset) of side 109−2·offset with transparent fill, all stroked
in the grid color at width 0.5 with a 5,5 dash pattern; the group is
inserted as the FIRST child of the root element, the existing children
following unchanged. -/
theorem claim_C9_grid_overlay (gridColor : String) (offset : ℤ) (tg : String)
    (a : List (String × String)) (cs : List Node) :
    add_grid gridColor offset (.element tg a cs) =
      .element tg a (gridGroup gridColor offset :: cs) ∧
    (gridGroup gridColor offset).getAttribute "id" = some "Grid" ∧
    (gridGroup gridColor offset).children.length = 3 ∧
    ((gridGroup gridColor offset).children.getD 0 (Node.text "")).nodeName = "line" ∧
    ((gridGroup gridColor offset).children.getD 0 (Node.text "")).getAttribute "x1" =
      some "55" ∧
    ((gridGroup gridColor offset).children.getD 0 (Node.text "")).getAttribute "y1" =
      some (toString offset) ∧
    ((gridGroup gridColor offset).children.getD 0 (Node.text "")).getAttribute "x2" =
      some "55" ∧
    ((gridGroup gridColor offset).children.getD 0 (Node.text "")).getAttribute "y2" =
      some (toString (109 - offset)) ∧
    ((gridGroup gridColor offset).children.getD 1 (Node.text "")).nodeName = "line" ∧
    ((gridGroup gridColor offset).children.getD 1 (Node.text "")).getAttribute "x1" =
      some (toString offset) ∧
    ((gridGroup gridColor offset).children.getD 1 (Node.text "")).getAttribute "y1" =
      some "55" ∧
    ((gridGroup gridColor offset).children.getD 1 (Node.text "")).getAttribute "x2" =
      some (toString (109 - offset)) ∧
    ((gridGroup gridColor offset).children.getD 1 (Node.text "")).getAttribute "y2" =
      some "55" ∧
    ((gridGroup gridColor offset).children.getD 2 (Node.text "")).nodeName = "rect" ∧
    ((gridGroup gridColor offset).children.getD 2 (Node.text "")).getAttribute "x" =
      some (toString offset) ∧
    ((gridGroup gridColor offset).children.getD 2 (Node.text "")).getAttribute "y" =
      some (toString offset) ∧
    ((gridGroup gridColor offset).children.getD 2 (Node.text "")).getAttribute "width" =
      some (toString (109 - 2 * offset)) ∧
    ((gridGroup gridColor offset).children.getD 2 (Node.text "")).getAttribute "height" =
      some (toString (109 - 2 * offset)) ∧
    ((gridGroup gridColor offset).children.getD 2 (Node.text "")).getAttribute "fill" =
      some "none" ∧
    (∀ c ∈ (gridGroup gridColor offset).children, c.getAttribute "style" =
      some ("stroke:" ++ gridColor ++ ";stroke-width:0.5;stroke-dasharray:5,5")) := by
  refine ⟨rfl, rfl, rfl, rfl, rfl, rfl, rfl, rfl, rfl, rfl, rfl, rfl, rfl, rfl, rfl,
    rfl, rfl, rfl, rfl, ?_⟩
  intro c hc
  simp only [gridGroup, Node.children, List.mem_cons, List.not_mem_nil, or_false] at hc
  rcases hc with rfl | rfl | rfl <;> rfl

/-- C9 witness: the grid inserted as first child on a concrete root. -/
theorem claim_C9_grid_overlay_witness :
    add_grid "gray" 20 (Node.element "svg" [] [Node.element "path" [] []]) =
      Node.element "svg" [] (gridGroup "gray" 20 :: [Node.element "path" [] []]) :=
  (claim_C9_grid_overlay "gray" 20 "svg" [] [Node.element "path" [] []]).1

end KanjiColorize
